import Mathlib

/-!
# Verification of the notwork transient-resource lifecycle engine

A shallow embedding of the namespace-aware transient resource lifecycle
engine of the `notwork` Go module, together with proofs of the spec's
claims about it.

Embedded source files:
* `link/link.go` — `NewTransient`, `base62Nifname` (interface name
  generation, the bounded create-and-retry loop, index recovery);
* `link/wrap.go`, `link/namespaced` — the wrapped-link "link namespace"
  annotation and `Unwrap`;
* `netdevsim/peer.go` — `newTransient`, `lowestAvailableID`,
  `portNifnames` (composite netdevsim device creation);
* `netns/netns.go` — `NewTransient` (detached network namespace
  creation).

Go strings that hold interface names are modelled as `List Char`;
effectful kernel interaction is modelled by environment records of
response oracles, and the functions additionally emit an event trace so
that claims about "no kernel interaction before X" and "deletion happens
before the failure surfaces" can be stated.
-/

namespace Notwork

/-! ## Interface name generation (`link/link.go`, `base62Nifname`) -/

/-- Maximum allowed length for Linux network interface names
(`maxNifnameLen` in `link/link.go`). -/
def maxNifnameLen : Nat := 15

/-- Minimum number of random base62 characters required
(`minRandomLen` in `link/link.go`). -/
def minRandomLen : Nat := 4

/-- The set of characters to create a random string from
(`base62chars` in `link/link.go`). -/
def base62chars : List Char :=
  "0123456789abcdefghijklmnopqrstuvwxyzABCDEFGHIJKLMNOPQRSTUVWXYZ".toList

/-- One draw of `base62chars[rand.Intn(len(base62chars))]`: the random
source yields an arbitrary natural, reduced mod 62 to model
`rand.Intn 62`; the in-bounds access is rendered with `getD` (the Go
index is always in bounds). -/
def base62draw (r : Nat) : Char :=
  base62chars.getD (r % base62chars.length) '0'

/-- `base62Nifname` from `link/link.go`: a random network interface name
consisting of the specified prefix and a random string, of the maximum
allowed length.  The randomness is supplied as a stream `rnd`; draw `k`
fills byte `len(prefix) + k`.  `none` models the `fail(...)` path taken
when the prefix exceeds `maxNifnameLen - minRandomLen` characters. -/
def base62Nifname (rnd : Nat → Nat) (pre : List Char) : Option (List Char) :=
  if pre.length > maxNifnameLen - minRandomLen then
    none
  else
    some (pre ++ (List.range (maxNifnameLen - pre.length)).map (fun k => base62draw (rnd k)))

/-- `RandomNifname` from `link/link.go` simply forwards to `base62Nifname`. -/
def RandomNifname (rnd : Nat → Nat) (pre : List Char) : Option (List Char) :=
  base62Nifname rnd pre

theorem base62chars_length : base62chars.length = 62 := by decide

theorem base62draw_mem (r : Nat) : base62draw r ∈ base62chars := by
  have h : r % base62chars.length < base62chars.length := by
    exact Nat.mod_lt _ (by decide)
  simp only [base62draw, List.getD_eq_getElem?_getD]
  rw [List.getElem?_eq_getElem h]
  exact List.getElem_mem _

theorem base62Nifname_short (rnd : Nat → Nat) (pre : List Char)
    (h : pre.length ≤ maxNifnameLen - minRandomLen) :
    base62Nifname rnd pre =
      some (pre ++ (List.range (maxNifnameLen - pre.length)).map (fun k => base62draw (rnd k))) := by
  simp [base62Nifname, Nat.not_lt.mpr h]

theorem base62Nifname_length (rnd : Nat → Nat) (pre : List Char) (name : List Char)
    (h : base62Nifname rnd pre = some name) : name.length = maxNifnameLen := by
  by_cases hlen : pre.length > maxNifnameLen - minRandomLen
  · simp [base62Nifname, hlen] at h
  · rw [base62Nifname_short rnd pre (Nat.not_lt.mp hlen)] at h
    cases h
    simp only [List.length_append, List.length_map, List.length_range]
    omega

theorem base62Nifname_startsWith (rnd : Nat → Nat) (pre : List Char) (name : List Char)
    (h : base62Nifname rnd pre = some name) : pre.isPrefixOf name := by
  by_cases hlen : pre.length > maxNifnameLen - minRandomLen
  · simp [base62Nifname, hlen] at h
  · rw [base62Nifname_short rnd pre (Nat.not_lt.mp hlen)] at h
    cases h
    exact List.isPrefixOf_iff_prefix.mpr (List.prefix_append _ _)

theorem base62Nifname_suffix_mem (rnd : Nat → Nat) (pre : List Char) (name : List Char)
    (h : base62Nifname rnd pre = some name) :
    ∀ c ∈ name.drop pre.length, c ∈ base62chars := by
  by_cases hlen : pre.length > maxNifnameLen - minRandomLen
  · simp [base62Nifname, hlen] at h
  · rw [base62Nifname_short rnd pre (Nat.not_lt.mp hlen)] at h
    cases h
    intro c hc
    rw [List.drop_left] at hc
    obtain ⟨k, _, rfl⟩ := List.mem_map.mp hc
    exact base62draw_mem _

theorem base62Nifname_long (rnd : Nat → Nat) (pre : List Char)
    (h : pre.length > maxNifnameLen - minRandomLen) :
    base62Nifname rnd pre = none := by
  simp [base62Nifname, h]

/-- C5: for every prefix of at most 11 characters the generator returns a
name of exactly 15 characters starting with the prefix whose remaining
characters are drawn from the 62-character alphanumeric alphabet; for
every longer prefix it fails immediately without producing a name. -/
theorem C5_base62Nifname_spec (rnd : Nat → Nat) (pre : List Char) :
    (pre.length ≤ 11 →
      ∃ name, base62Nifname rnd pre = some name ∧
        name.length = 15 ∧ pre.isPrefixOf name ∧
        ∀ c ∈ name.drop pre.length, c ∈ base62chars) ∧
    (pre.length > 11 → base62Nifname rnd pre = none) := by
  constructor
  · intro h
    have h' : pre.length ≤ maxNifnameLen - minRandomLen := by
      simpa [maxNifnameLen, minRandomLen] using h
    refine ⟨pre ++ (List.range (maxNifnameLen - pre.length)).map (fun k => base62draw (rnd k)),
      base62Nifname_short rnd pre h', ?_, ?_, ?_⟩
    · exact base62Nifname_length rnd pre _ (base62Nifname_short rnd pre h')
    · exact base62Nifname_startsWith rnd pre _ (base62Nifname_short rnd pre h')
    · exact base62Nifname_suffix_mem rnd pre _ (base62Nifname_short rnd pre h')
  · intro h
    exact base62Nifname_long rnd pre (by simpa [maxNifnameLen, minRandomLen] using h)

/-- Witness for C5 at the concrete prefix `"dmy-"` and identity stream. -/
theorem C5_base62Nifname_spec_witness :
    (∃ name, base62Nifname (fun n => n) ['d', 'm', 'y', '-'] = some name ∧
        name.length = 15 ∧ ['d', 'm', 'y', '-'].isPrefixOf name ∧
        ∀ c ∈ name.drop 4, c ∈ base62chars) ∧
    base62Nifname (fun n => n) (List.replicate 12 'x') = none := by
  constructor
  · exact (C5_base62Nifname_spec (fun n => n) ['d', 'm', 'y', '-']).1 (by decide)
  · exact (C5_base62Nifname_spec (fun n => n) (List.replicate 12 'x')).2 (by decide)

/-! ## netdevsim ID allocation (`netdevsim/peer.go`, `lowestAvailableID`) -/

/-- `netdevsimDevicePrefix` from `netdevsim/peer.go` (strings are
modelled as `List Char` throughout). -/
def netdevsimDevicePrefix : List Char := "netdevsim".toList

/-- Go's `strings.TrimPrefix`: removes the prefix when present, else
returns the string unchanged. -/
def trimPrefix (s pre : List Char) : List Char :=
  if pre.isPrefixOf s then s.drop pre.length else s

/-- Go's `strconv.ParseUint(s, 10, 32)`: succeeds exactly on nonempty
all-decimal-digit strings whose value fits in 32 bits (no sign, leading
zeros allowed). -/
def parseUint32 (s : List Char) : Option Nat :=
  if s.isEmpty then none
  else if s.all Char.isDigit then
    let v := s.foldl (fun a c => 10 * a + (c.toNat - 48)) 0
    if v < 2 ^ 32 then some v else none
  else none

/-- The IDs in use according to a directory listing of
`/sys/bus/netdevsim/devices`: each entry name has the `netdevsim` prefix
trimmed and is parsed as a decimal unsigned 32-bit number; entries that
do not parse are skipped (the `continue` in `lowestAvailableID`). -/
def usedIDs (entries : List (List Char)) : List Nat :=
  entries.filterMap (fun e => parseUint32 (trimPrefix e netdevsimDevicePrefix))

/-- The unbounded `for { ... id++ }` search loop of `lowestAvailableID`,
rendered with explicit fuel; fuel `usedIDs.length + 1` always suffices
(proved below), matching the Go loop's guaranteed termination. -/
def lowestFrom (ids : List Nat) : Nat → Nat → Nat
  | 0, id => id
  | fuel + 1, id => if ids.contains id then lowestFrom ids fuel (id + 1) else id

/-- `lowestAvailableID` from `netdevsim/peer.go`, over a directory
listing already obtained (the `os.Open`/`ReadDir` error paths are
modelled at the call site in the creation engine). -/
def lowestAvailableID (entries : List (List Char)) : Nat :=
  let ids := usedIDs entries
  lowestFrom ids (ids.length + 1) 0

theorem lowestFrom_spec (ids : List Nat) :
    ∀ fuel start, (∃ i < fuel, (start + i) ∉ ids) →
      lowestFrom ids fuel start ∉ ids ∧
      start ≤ lowestFrom ids fuel start ∧
      ∀ m, start ≤ m → m < lowestFrom ids fuel start → m ∈ ids := by
  intro fuel
  induction fuel with
  | zero =>
    intro start h
    obtain ⟨i, hi, _⟩ := h
    omega
  | succ fuel ih =>
    intro start h
    by_cases hmem : ids.contains start = true
    · have hmem' : start ∈ ids := by simpa using hmem
      have h' : ∃ i < fuel, (start + 1 + i) ∉ ids := by
        obtain ⟨i, hi, hni⟩ := h
        rcases i with _ | i
        · exact absurd hmem' (by simpa using hni)
        · exact ⟨i, by omega, by have heq : start + 1 + i = start + (i + 1) := by omega
                                 rw [heq]; exact hni⟩
      have hrec := ih (start + 1) h'
      have hstep : lowestFrom ids (fuel + 1) start = lowestFrom ids fuel (start + 1) := by
        simp only [lowestFrom, if_pos hmem]
      rw [hstep]
      refine ⟨hrec.1, by omega, ?_⟩
      intro m hm hmlt
      rcases Nat.eq_or_lt_of_le hm with rfl | hmlt'
      · exact hmem'
      · exact hrec.2.2 m hmlt' hmlt
    · have hstep : lowestFrom ids (fuel + 1) start = start := by
        simp only [lowestFrom, if_neg hmem]
      rw [hstep]
      exact ⟨by simpa using hmem, Nat.le_refl _, fun m hm hmlt => by omega⟩

/-- Pigeonhole: among `0 .. ids.length` some number is not in `ids`. -/
theorem exists_not_mem_of_length (ids : List Nat) :
    ∃ i < ids.length + 1, (0 + i) ∉ ids := by
  by_contra h
  push_neg at h
  have hsub : Finset.range (ids.length + 1) ⊆ ids.toFinset := by
    intro i hi
    rw [List.mem_toFinset]
    simpa using h i (Finset.mem_range.mp hi)
  have hcard := Finset.card_le_card hsub
  rw [Finset.card_range] at hcard
  have := ids.toFinset_card_le
  omega

/-- C8: `lowestAvailableID` returns the smallest non-negative integer not
among the IDs parsed from the directory entries (trim the `netdevsim`
prefix, parse as decimal unsigned; unparsable entries ignored). -/
theorem C8_lowestAvailableID_spec (entries : List (List Char)) :
    lowestAvailableID entries ∉ usedIDs entries ∧
    ∀ m < lowestAvailableID entries, m ∈ usedIDs entries := by
  have h := lowestFrom_spec (usedIDs entries) ((usedIDs entries).length + 1) 0
    (exists_not_mem_of_length (usedIDs entries))
  exact ⟨h.1, fun m hm => h.2.2 m (Nat.zero_le m) hm⟩

/-- Witness for C8 at a concrete listing: entries `netdevsim0`,
`netdevsim1` and a non-parsing `x2` yield the lowest free ID 2, with
the smaller ID 0 indeed in use. -/
theorem C8_lowestAvailableID_spec_witness :
    lowestAvailableID ["netdevsim0".toList, "netdevsim1".toList, "x2".toList] = 2 ∧
    lowestAvailableID ["netdevsim0".toList, "netdevsim1".toList, "x2".toList] ∉
      usedIDs ["netdevsim0".toList, "netdevsim1".toList, "x2".toList] ∧
    0 ∈ usedIDs ["netdevsim0".toList, "netdevsim1".toList, "x2".toList] :=
  ⟨by decide,
   (C8_lowestAvailableID_spec ["netdevsim0".toList, "netdevsim1".toList, "x2".toList]).1,
   (C8_lowestAvailableID_spec
     ["netdevsim0".toList, "netdevsim1".toList, "x2".toList]).2 0 (by decide)⟩

/-! ## The link creation engine (`link/link.go`, `NewTransient`)

The data model: a namespace reference attribute is `nil`, a
`netlink.NsFd`, or some other (unsupported) reference kind; a link
descriptor carries name, index, destination namespace and its kind
(a `*netlink.Veth` with its peer name, or any other dynamic type with
its `Type()` string).  A caller passes either a bare descriptor or one
wrapped in `link.Link` (package `namespaced`) carrying the resolution
("link") namespace annotation.  Go mutates descriptors through
pointers; the engine's deep-copy discipline is made visible with a
two-object store (`Objs`) addressed by `ObjRef`: the Go variable
`link` initially denotes the caller's object and is reassigned to the
copy right after `copier.CopyWithOption`, so every later field write
goes through `ObjRef.copy`. -/

/-- A non-nil namespace reference value: a `netlink.NsFd`, or any other
dynamic type (e.g. `netlink.NsPid`), which the engine rejects. -/
inductive NsRef
  | nsFd (fd : Int)
  | otherKind
deriving DecidableEq, Repr

/-- The dynamic kind of a `netlink.Link`: a `*netlink.Veth` (carrying
its `PeerName`) or any other implementation with its `Type()` string. -/
inductive LinkKind
  | veth (peerName : List Char)
  | nonVeth (typ : String)
deriving DecidableEq, Repr

/-- The parts of `netlink.LinkAttrs` and the link the engine touches:
`Attrs().Name`, `Attrs().Index`, `Attrs().Namespace`, and the kind. -/
structure LinkDesc where
  name : List Char
  index : Int
  nspace : Option NsRef
  kind : LinkKind
deriving DecidableEq, Repr

/-- `link.Type()`: `"veth"` for `*netlink.Veth`, else the dynamic
type's own string. -/
def LinkDesc.type (l : LinkDesc) : String :=
  match l.kind with
  | .veth _ => "veth"
  | .nonVeth t => t

/-- What a caller passes to `NewTransient`: either a bare
`netlink.Link`, or a `link.Link` wrapper (package `namespaced`)
carrying the `LinkNamespace` annotation. -/
inductive InLink
  | bare (l : LinkDesc)
  | wrapped (l : LinkDesc) (linkNamespace : Option NsRef)
deriving DecidableEq, Repr

/-- `namespaced.Unwrap`: unwraps a wrapper, returning the inner link
and the piggy-backed link-namespace reference (nil for bare links). -/
def unwrapLink : InLink → LinkDesc × Option NsRef
  | .bare l => (l, none)
  | .wrapped l ns => (l, ns)

/-- `link.Attrs()` on the possibly wrapped value: the wrapper embeds
the inner `netlink.Link`, so `Attrs()` delegates to it. -/
def InLink.attrs : InLink → LinkDesc
  | .bare l => l
  | .wrapped l _ => l

/-- Which heap object a descriptor-typed Go variable denotes: the
caller's template or the engine's deep copy. -/
inductive ObjRef
  | caller
  | copy
deriving DecidableEq, Repr

/-- The two descriptor objects alive during one `NewTransient` call. -/
structure Objs where
  caller : LinkDesc
  copy : LinkDesc
deriving DecidableEq, Repr

/-- Pointer read. -/
def Objs.rd (o : Objs) : ObjRef → LinkDesc
  | .caller => o.caller
  | .copy => o.copy

/-- Pointer write. -/
def Objs.wr (o : Objs) : ObjRef → LinkDesc → Objs
  | .caller, l => { o with caller := l }
  | .copy, l => { o with copy := l }

/-- `link.Attrs().Name = ifname`. -/
def Objs.setName (o : Objs) (r : ObjRef) (n : List Char) : Objs :=
  o.wr r { o.rd r with name := n }

/-- `link.Attrs().Index = idx`. -/
def Objs.setIndex (o : Objs) (r : ObjRef) (i : Int) : Objs :=
  o.wr r { o.rd r with index := i }

/-- `veth.PeerName = peername` (only reached on the VETH branch). -/
def Objs.setPeerName (o : Objs) (r : ObjRef) (p : List Char) : Objs :=
  o.wr r { o.rd r with kind := match (o.rd r).kind with
                               | .veth _ => .veth p
                               | k => k }

/-- The kernel-facing steps `NewTransient` performs, in order; `viaNs`
identifies the netlink session's scope (`some fd` = the session opened
on that namespace fd, `none` = a session on the caller's current
network namespace). -/
inductive LinkEvent
  | handleOpen (viaNs : Option Int)
  | procSelfNetnsOpen
  | linkAdd (viaNs : Option Int) (l : LinkDesc)
  | linkByName (viaNs : Option Int) (name : List Char)
  | cleanupRegistered (viaNs : Option Int) (l : LinkDesc)
deriving DecidableEq, Repr

/-- The kernel's response to one `LinkAdd` call: success (with the
index value the vishvananda/netlink library stamps onto the
descriptor's `Index` attribute afterwards, which is unreliable when
namespaces are crossed), a name-collision error (`errors.Is(err,
os.ErrExist)`), or any other error. -/
inductive AddResult
  | ok (libIndex : Int)
  | errExist
  | errOther (msg : String)
deriving DecidableEq, Repr

/-- The environment `NewTransient` runs against: the random source
(`rnd c` is the stream consumed by the `c`-th `base62Nifname` call),
whether `netlink.NewHandleAt` succeeds on a given fd / on the fd of
the caller's current namespace, whether the procfs open of
`/proc/thread-self/ns/net` succeeds, the kernel's answer to the `k`-th
creation attempt, and name lookup through a session of a given scope
(the found link's index, or `none` for a failed/nil lookup). -/
structure LinkEnv where
  rnd : Nat → Nat → Nat
  handleAt : Int → Bool
  handleAtCurrent : Bool
  procNetnsOpenOk : Bool
  addResult : Nat → AddResult
  lookup : Option Int → List Char → Option Int

/-- How a modelled operation ends: a returned value, or a Ginkgo
`Fail`/failed `Expect` aborting the test with a message. -/
inductive Outcome (α : Type)
  | ok (val : α)
  | failed (msg : String)
deriving DecidableEq, Repr

/-- The observable result of one `NewTransient` call: the final state
of both descriptor objects, the outcome, and the kernel event trace. -/
structure LinkResult where
  objs : Objs
  outcome : Outcome LinkDesc
  events : List LinkEvent
deriving DecidableEq, Repr

/-- `fmt.Sprintf("cannot create a transient network interface of type %q, reason: %v", ...)`. -/
def cannotCreateLinkMsg (typ msg : String) : String :=
  "cannot create a transient network interface of type \x22" ++ typ ++ "\x22, reason: " ++ msg

/-- `fmt.Sprintf("too many failed attempts to create a transient network interface of type %q", ...)`. -/
def tooManyLinkAttemptsMsg (typ : String) : String :=
  "too many failed attempts to create a transient network interface of type \x22" ++ typ ++ "\x22"

/-- `base62Nifname`'s own `fail` message for an over-long prefix. -/
def prefixTooLongMsg (pre : List Char) : String :=
  "cannot create random network interface name, because prefix \x22" ++ String.mk pre ++
    "\x22 is longer than 11 characters"

/-- `Expect` description of a failed post-creation `LinkByName`. -/
def indexLookupFailedMsg : String :=
  "cannot determine network interface index after creation"

/-- The `for attempt := 1; attempt <= 10; attempt++` loop of
`NewTransient`: draw a fresh name (and, for a `*netlink.Veth`, a fresh
peer name), issue `LinkAdd` through the resolution-scoped session
`resNs`, retry on `os.ErrExist`, abort on any other error; on success
re-look the name up through the destination-scoped session `destNs`,
overwrite the index, and register the cleanup.  `fuel` is the number
of attempts left (10 at entry), `attempt` the 1-based attempt counter
indexing the kernel's responses, `ctr` the count of `base62Nifname`
calls made so far. -/
def attemptLoop (env : LinkEnv) (pre : List Char) (r : ObjRef)
    (resNs destNs : Option Int) :
    Nat → Nat → Nat → Objs → List LinkEvent → LinkResult
  | 0, _, _, objs, evs =>
    { objs := objs, outcome := .failed (tooManyLinkAttemptsMsg (objs.rd r).type), events := evs }
  | fuel + 1, attempt, ctr, objs, evs =>
    match base62Nifname (env.rnd ctr) pre with
    | none => { objs := objs, outcome := .failed (prefixTooLongMsg pre), events := evs }
    | some ifname =>
      let objs1 := objs.setName r ifname
      let step2 : Option (Objs × Nat) :=
        match (objs1.rd r).kind with
        | .veth _ =>
          match base62Nifname (env.rnd (ctr + 1)) pre with
          | none => none
          | some peer => some (objs1.setPeerName r peer, ctr + 2)
        | .nonVeth _ => some (objs1, ctr + 1)
      match step2 with
      | none => { objs := objs1, outcome := .failed (prefixTooLongMsg pre), events := evs }
      | some (objs2, ctr') =>
        let evs2 := evs ++ [.linkAdd resNs (objs2.rd r)]
        match env.addResult attempt with
        | .errExist => attemptLoop env pre r resNs destNs fuel (attempt + 1) ctr' objs2 evs2
        | .errOther m =>
          { objs := objs2, outcome := .failed (cannotCreateLinkMsg (objs2.rd r).type m),
            events := evs2 }
        | .ok libIdx =>
          let objs3 := objs2.setIndex r libIdx
          let evs3 := evs2 ++ [.linkByName destNs (objs3.rd r).name]
          match env.lookup destNs (objs3.rd r).name with
          | none =>
            { objs := objs3, outcome := .failed indexLookupFailedMsg, events := evs3 }
          | some idx =>
            let objs4 := objs3.setIndex r idx
            { objs := objs4, outcome := .ok (objs4.rd r),
              events := evs3 ++ [.cleanupRegistered destNs (objs4.rd r)] }

/-- `link.NewTransient` from `link/link.go`.  Straight-line
translation: validate `Attrs().Namespace`, unwrap, deep-copy, open the
resolution-scoped handle (`linknetnsh`), open the destination-scoped
handle (`netnsh`), then run the bounded attempt loop on the copy. -/
def NewTransient (env : LinkEnv) (inlink : InLink) (pre : List Char) : LinkResult :=
  let l0 := (unwrapLink inlink).1
  let linkNamespace := (unwrapLink inlink).2
  -- Expect(link).NotTo(BeNil()): an `InLink` value is never nil.
  -- if _, ok := link.Attrs().Namespace.(netlink.NsFd); ... && !ok { fail(...) }
  if (InLink.attrs inlink).nspace = some .otherKind then
    { objs := ⟨l0, l0⟩,
      outcome := .failed "link.Attrs().Namespace reference must be nil or a netlink.NsFd",
      events := [] }
  else
    -- deep copy; from here the Go variable `link` denotes the copy.
    let objs : Objs := ⟨l0, l0⟩
    -- resolution-scoped handle (linknetnsh):
    let res : Outcome (Option Int) × List LinkEvent :=
      match linkNamespace with
      | none => (.ok none, [])
      | some (.nsFd fd) =>
        if env.handleAt fd then (.ok (some fd), [.handleOpen (some fd)])
        else (.failed "cannot create NETLINK handle for link network namespace",
          [.handleOpen (some fd)])
      | some .otherKind =>
        (.failed "wrapped namespace.LinkNamespace must be nil or a netlink.NsFd", [])
    match res with
    | (.failed m, evs) => { objs := objs, outcome := .failed m, events := evs }
    | (.ok resNs, evs0) =>
      -- destination-scoped handle (netnsh):
      let dst : Outcome (Option Int) × List LinkEvent :=
        match (objs.rd .copy).nspace with
        | none =>
          if env.procNetnsOpenOk then
            if env.handleAtCurrent then (.ok none, [.procSelfNetnsOpen, .handleOpen none])
            else (.failed "cannot create NETLINK handle for network namespace",
              [.procSelfNetnsOpen, .handleOpen none])
          else (.failed "cannot determine current network namespace from procfs",
            [.procSelfNetnsOpen])
        | some (.nsFd fd) =>
          if env.handleAt fd then (.ok (some fd), [.handleOpen (some fd)])
          else (.failed "cannot create NETLINK handle", [.handleOpen (some fd)])
        | some .otherKind =>
          -- dead code: guarded by the Namespace validation above.
          (.failed "unreachable: guarded type assertion", [])
      match dst with
      | (.failed m, evs1) => { objs := objs, outcome := .failed m, events := evs0 ++ evs1 }
      | (.ok destNs, evs1) =>
        attemptLoop env pre .copy resNs destNs 10 1 0 objs (evs0 ++ evs1)

/-! ### Supporting lemmas for the attempt loop -/

/-- How many `base62Nifname` calls one attempt makes for this kind. -/
def drawsPer : LinkKind → Nat
  | .veth _ => 2
  | .nonVeth _ => 1

/-- The descriptor value handed to `LinkAdd` at the `i`-th (0-based)
loop iteration, entering the loop with copy value `l` and generator
call counter `ctr`: the name (and, for VETH, the peer name) are fresh
draws; index and destination namespace are untouched. -/
def attemptLink (env : LinkEnv) (pre : List Char) (l : LinkDesc) (ctr : Nat) (i : Nat) :
    LinkDesc :=
  match l.kind with
  | .veth _ =>
    { l with name := (base62Nifname (env.rnd (ctr + 2 * i)) pre).getD [],
             kind := .veth ((base62Nifname (env.rnd (ctr + 2 * i + 1)) pre).getD []) }
  | .nonVeth _ => { l with name := (base62Nifname (env.rnd (ctr + i)) pre).getD [] }

theorem Objs.rd_wr (o : Objs) (r : ObjRef) (l : LinkDesc) : (o.wr r l).rd r = l := by
  cases r <;> rfl

theorem Objs.wr_wr (o : Objs) (r : ObjRef) (a b : LinkDesc) :
    (o.wr r a).wr r b = o.wr r b := by
  cases r <;> rfl

theorem Objs.wr_copy_caller (o : Objs) (l : LinkDesc) : (o.wr .copy l).caller = o.caller := rfl

theorem attemptLink_type (env : LinkEnv) (pre : List Char) (l : LinkDesc) (ctr i : Nat) :
    (attemptLink env pre l ctr i).type = l.type := by
  cases hk : l.kind <;> simp [attemptLink, LinkDesc.type, hk]

theorem attemptLink_index (env : LinkEnv) (pre : List Char) (l : LinkDesc) (ctr i : Nat) :
    (attemptLink env pre l ctr i).index = l.index := by
  cases hk : l.kind <;> simp [attemptLink, hk]

theorem attemptLink_nspace (env : LinkEnv) (pre : List Char) (l : LinkDesc) (ctr i : Nat) :
    (attemptLink env pre l ctr i).nspace = l.nspace := by
  cases hk : l.kind <;> simp [attemptLink, hk]

theorem attemptLink_draws (env : LinkEnv) (pre : List Char) (l : LinkDesc) (ctr i : Nat) :
    drawsPer (attemptLink env pre l ctr i).kind = drawsPer l.kind := by
  cases hk : l.kind <;> simp [attemptLink, drawsPer, hk]

theorem attemptLink_comp (env : LinkEnv) (pre : List Char) (l : LinkDesc) (ctr s i : Nat) :
    attemptLink env pre (attemptLink env pre l ctr s) (ctr + drawsPer l.kind * (s + 1)) i =
      attemptLink env pre l ctr (s + 1 + i) := by
  cases hk : l.kind with
  | veth p =>
    simp only [attemptLink, hk, drawsPer]
    have h1 : ctr + 2 * (s + 1) + 2 * i = ctr + 2 * (s + 1 + i) := by ring
    rw [h1]
  | nonVeth t =>
    simp only [attemptLink, hk, drawsPer]
    have h1 : ctr + 1 * (s + 1) + i = ctr + (s + 1 + i) := by ring
    rw [h1]

/-- Whether an event is a kernel creation call. -/
def LinkEvent.isAdd : LinkEvent → Bool
  | .linkAdd _ _ => true
  | _ => false

/-- The number of kernel creation calls in a trace. -/
def addCount (evs : List LinkEvent) : Nat := (evs.filter LinkEvent.isAdd).length

theorem addCount_append (a b : List LinkEvent) :
    addCount (a ++ b) = addCount a + addCount b := by
  simp [addCount, List.filter_append]

theorem addCount_map_add (ns : Option Int) (f : Nat → LinkDesc) (s : Nat) :
    addCount ((List.range s).map (fun i => LinkEvent.linkAdd ns (f i))) = s := by
  simp [addCount, List.filter_eq_self.mpr, LinkEvent.isAdd]

theorem attemptLoop_step_exist (env : LinkEnv) (pre : List Char) (r : ObjRef)
    (resNs destNs : Option Int) (fuel attempt ctr : Nat) (objs : Objs) (evs : List LinkEvent)
    (h : pre.length ≤ 11) (ha : env.addResult attempt = .errExist) :
    attemptLoop env pre r resNs destNs (fuel + 1) attempt ctr objs evs =
      attemptLoop env pre r resNs destNs fuel (attempt + 1)
        (ctr + drawsPer (objs.rd r).kind)
        (objs.wr r (attemptLink env pre (objs.rd r) ctr 0))
        (evs ++ [.linkAdd resNs (attemptLink env pre (objs.rd r) ctr 0)]) := by
  have h' : pre.length ≤ maxNifnameLen - minRandomLen := by
    simpa [maxNifnameLen, minRandomLen] using h
  simp only [attemptLoop, base62Nifname_short _ _ h', Objs.setName, Objs.setPeerName,
    Objs.rd_wr, Objs.wr_wr, ha]
  cases hk : (objs.rd r).kind <;>
    simp [hk, attemptLink, drawsPer, Objs.rd_wr, Objs.wr_wr, base62Nifname_short _ _ h']

theorem attemptLoop_step_other (env : LinkEnv) (pre : List Char) (r : ObjRef)
    (resNs destNs : Option Int) (fuel attempt ctr : Nat) (objs : Objs) (evs : List LinkEvent)
    (m : String)
    (h : pre.length ≤ 11) (ha : env.addResult attempt = .errOther m) :
    attemptLoop env pre r resNs destNs (fuel + 1) attempt ctr objs evs =
      { objs := objs.wr r (attemptLink env pre (objs.rd r) ctr 0),
        outcome := .failed (cannotCreateLinkMsg (objs.rd r).type m),
        events := evs ++ [.linkAdd resNs (attemptLink env pre (objs.rd r) ctr 0)] } := by
  have h' : pre.length ≤ maxNifnameLen - minRandomLen := by
    simpa [maxNifnameLen, minRandomLen] using h
  simp only [attemptLoop, base62Nifname_short _ _ h', Objs.setName, Objs.setPeerName,
    Objs.rd_wr, Objs.wr_wr, ha]
  cases hk : (objs.rd r).kind <;>
    simp [hk, attemptLink, LinkDesc.type, Objs.rd_wr, Objs.wr_wr, base62Nifname_short _ _ h']

theorem attemptLoop_step_ok_lookupFail (env : LinkEnv) (pre : List Char) (r : ObjRef)
    (resNs destNs : Option Int) (fuel attempt ctr : Nat) (objs : Objs) (evs : List LinkEvent)
    (libIdx : Int)
    (h : pre.length ≤ 11) (ha : env.addResult attempt = .ok libIdx)
    (hlk : env.lookup destNs (attemptLink env pre (objs.rd r) ctr 0).name = none) :
    attemptLoop env pre r resNs destNs (fuel + 1) attempt ctr objs evs =
      { objs := objs.wr r { attemptLink env pre (objs.rd r) ctr 0 with index := libIdx },
        outcome := .failed indexLookupFailedMsg,
        events := evs ++ [.linkAdd resNs (attemptLink env pre (objs.rd r) ctr 0),
          .linkByName destNs (attemptLink env pre (objs.rd r) ctr 0).name] } := by
  have h' : pre.length ≤ maxNifnameLen - minRandomLen := by
    simpa [maxNifnameLen, minRandomLen] using h
  simp only [attemptLoop, base62Nifname_short _ _ h', Objs.setName, Objs.setPeerName,
    Objs.setIndex, Objs.rd_wr, Objs.wr_wr, ha]
  cases hk : (objs.rd r).kind <;>
    simp_all [hk, attemptLink, Objs.rd_wr, Objs.wr_wr, base62Nifname_short _ _ h']

theorem attemptLoop_step_ok (env : LinkEnv) (pre : List Char) (r : ObjRef)
    (resNs destNs : Option Int) (fuel attempt ctr : Nat) (objs : Objs) (evs : List LinkEvent)
    (libIdx idx : Int)
    (h : pre.length ≤ 11) (ha : env.addResult attempt = .ok libIdx)
    (hlk : env.lookup destNs (attemptLink env pre (objs.rd r) ctr 0).name = some idx) :
    attemptLoop env pre r resNs destNs (fuel + 1) attempt ctr objs evs =
      { objs := objs.wr r { attemptLink env pre (objs.rd r) ctr 0 with index := idx },
        outcome := .ok { attemptLink env pre (objs.rd r) ctr 0 with index := idx },
        events := evs ++ [.linkAdd resNs (attemptLink env pre (objs.rd r) ctr 0),
          .linkByName destNs (attemptLink env pre (objs.rd r) ctr 0).name,
          .cleanupRegistered destNs { attemptLink env pre (objs.rd r) ctr 0 with index := idx }] } := by
  have h' : pre.length ≤ maxNifnameLen - minRandomLen := by
    simpa [maxNifnameLen, minRandomLen] using h
  simp only [attemptLoop, base62Nifname_short _ _ h', Objs.setName, Objs.setPeerName,
    Objs.setIndex, Objs.rd_wr, Objs.wr_wr, ha]
  cases hk : (objs.rd r).kind <;>
    simp_all [hk, attemptLink, Objs.rd_wr, Objs.wr_wr, base62Nifname_short _ _ h']

/-- The loop exits through `base62Nifname`'s own `fail` when the
prefix is over-long, before any kernel call of this iteration. -/
theorem attemptLoop_preTooLong (env : LinkEnv) (pre : List Char) (r : ObjRef)
    (resNs destNs : Option Int) (fuel attempt ctr : Nat) (objs : Objs) (evs : List LinkEvent)
    (h : pre.length > 11) :
    attemptLoop env pre r resNs destNs (fuel + 1) attempt ctr objs evs =
      { objs := objs, outcome := .failed (prefixTooLongMsg pre), events := evs } := by
  have h' : pre.length > maxNifnameLen - minRandomLen := by
    simpa [maxNifnameLen, minRandomLen] using h
  simp [attemptLoop, base62Nifname_long _ _ h']

theorem attemptLoop_zero (env : LinkEnv) (pre : List Char) (r : ObjRef)
    (resNs destNs : Option Int) (attempt ctr : Nat) (objs : Objs) (evs : List LinkEvent) :
    attemptLoop env pre r resNs destNs 0 attempt ctr objs evs =
      { objs := objs, outcome := .failed (tooManyLinkAttemptsMsg (objs.rd r).type),
        events := evs } := rfl

/-- The copy object after `s` collision iterations. -/
def skipObjs (env : LinkEnv) (pre : List Char) (r : ObjRef) (objs : Objs) (ctr : Nat) :
    Nat → Objs
  | 0 => objs
  | s + 1 => objs.wr r (attemptLink env pre (objs.rd r) ctr s)

theorem skipObjs_attemptLink (env : LinkEnv) (pre : List Char) (r : ObjRef) (objs : Objs)
    (ctr s i : Nat) :
    attemptLink env pre ((skipObjs env pre r objs ctr s).rd r)
      (ctr + drawsPer (objs.rd r).kind * s) i = attemptLink env pre (objs.rd r) ctr (s + i) := by
  cases s with
  | zero => simp [skipObjs]
  | succ s' =>
    simp only [skipObjs, Objs.rd_wr]
    exact attemptLink_comp env pre (objs.rd r) ctr s' i

theorem skipObjs_draws (env : LinkEnv) (pre : List Char) (r : ObjRef) (objs : Objs)
    (ctr s : Nat) :
    drawsPer ((skipObjs env pre r objs ctr s).rd r).kind = drawsPer (objs.rd r).kind := by
  cases s with
  | zero => rfl
  | succ s' => simp [skipObjs, Objs.rd_wr, attemptLink_draws]

theorem skipObjs_type (env : LinkEnv) (pre : List Char) (r : ObjRef) (objs : Objs)
    (ctr s : Nat) :
    ((skipObjs env pre r objs ctr s).rd r).type = (objs.rd r).type := by
  cases s with
  | zero => rfl
  | succ s' => simp [skipObjs, Objs.rd_wr, attemptLink_type]

theorem skipObjs_caller (env : LinkEnv) (pre : List Char) (objs : Objs) (ctr s : Nat) :
    (skipObjs env pre .copy objs ctr s).caller = objs.caller := by
  cases s with
  | zero => rfl
  | succ s' => simp [skipObjs, Objs.wr_copy_caller]

theorem skipObjs_shift (env : LinkEnv) (pre : List Char) (r : ObjRef) (objs : Objs)
    (ctr s : Nat) :
    skipObjs env pre r (objs.wr r (attemptLink env pre (objs.rd r) ctr 0))
      (ctr + drawsPer (objs.rd r).kind) s = skipObjs env pre r objs ctr (s + 1) := by
  cases s with
  | zero => rfl
  | succ s' =>
    simp only [skipObjs, Objs.rd_wr, Objs.wr_wr]
    have hcomp := attemptLink_comp env pre (objs.rd r) ctr 0 s'
    simp only [Nat.mul_one, Nat.zero_add] at hcomp
    rw [hcomp, Nat.add_comm 1 s']

theorem skipObjs_wr_next (env : LinkEnv) (pre : List Char) (r : ObjRef) (objs : Objs)
    (ctr s : Nat) :
    (skipObjs env pre r objs ctr s).wr r (attemptLink env pre (objs.rd r) ctr s) =
      skipObjs env pre r objs ctr (s + 1) := by
  cases s with
  | zero => rfl
  | succ s' => simp [skipObjs, Objs.wr_wr]

/-- Skipping `s` consecutive collision attempts: the loop arrives at
attempt `attempt + s` with the fuel, generator counter and event trace
advanced accordingly, every skipped attempt having issued exactly one
creation call carrying a freshly drawn name. -/
theorem attemptLoop_skip (env : LinkEnv) (pre : List Char) (r : ObjRef)
    (resNs destNs : Option Int) (h : pre.length ≤ 11) :
    ∀ s fuel attempt ctr objs evs, s ≤ fuel →
      (∀ k, attempt ≤ k → k < attempt + s → env.addResult k = .errExist) →
      attemptLoop env pre r resNs destNs fuel attempt ctr objs evs =
        attemptLoop env pre r resNs destNs (fuel - s) (attempt + s)
          (ctr + drawsPer (objs.rd r).kind * s)
          (skipObjs env pre r objs ctr s)
          (evs ++ (List.range s).map fun i =>
            LinkEvent.linkAdd resNs (attemptLink env pre (objs.rd r) ctr i)) := by
  intro s
  induction s with
  | zero => intro fuel attempt ctr objs evs _ _; simp [skipObjs]
  | succ s ih =>
    intro fuel attempt ctr objs evs hs hc
    obtain ⟨fuel', rfl⟩ : ∃ fuel', fuel = fuel' + 1 :=
      ⟨fuel - 1, by omega⟩
    rw [attemptLoop_step_exist env pre r resNs destNs fuel' attempt ctr objs evs h
      (hc attempt (Nat.le_refl _) (by omega))]
    rw [ih fuel' (attempt + 1) (ctr + drawsPer (objs.rd r).kind)
      (objs.wr r (attemptLink env pre (objs.rd r) ctr 0))
      (evs ++ [LinkEvent.linkAdd resNs (attemptLink env pre (objs.rd r) ctr 0)])
      (by omega) (fun k hk1 hk2 => hc k (by omega) (by omega))]
    have hd : drawsPer ((objs.wr r (attemptLink env pre (objs.rd r) ctr 0)).rd r).kind =
        drawsPer (objs.rd r).kind := by
      rw [Objs.rd_wr]; exact attemptLink_draws env pre _ ctr 0
    rw [hd, skipObjs_shift]
    congr 1
    · omega
    · omega
    · ring
    · rw [List.append_assoc]
      congr 1
      rw [List.range_succ_eq_map]
      simp only [List.map_cons, List.map_map, List.singleton_append]
      congr 1
      refine List.map_congr_left ?_
      intro i _
      simp only [Function.comp_apply, Objs.rd_wr]
      have hcomp := attemptLink_comp env pre (objs.rd r) ctr 0 i
      simp only [Nat.mul_one, Nat.zero_add] at hcomp
      rw [hcomp, Nat.add_comm 1 i]

/-- When every attempt collides, the loop exhausts its 10-attempt
budget and fails with the "too many failed attempts" message naming
the requested kind, having issued one creation call per attempt, each
with a freshly drawn name. -/
theorem attemptLoop_allExist (env : LinkEnv) (pre : List Char) (r : ObjRef)
    (resNs destNs : Option Int) (fuel attempt ctr : Nat) (objs : Objs) (evs : List LinkEvent)
    (h : pre.length ≤ 11)
    (hc : ∀ k, attempt ≤ k → k < attempt + fuel → env.addResult k = .errExist) :
    attemptLoop env pre r resNs destNs fuel attempt ctr objs evs =
      { objs := skipObjs env pre r objs ctr fuel,
        outcome := .failed (tooManyLinkAttemptsMsg (objs.rd r).type),
        events := evs ++ (List.range fuel).map fun i =>
          LinkEvent.linkAdd resNs (attemptLink env pre (objs.rd r) ctr i) } := by
  rw [attemptLoop_skip env pre r resNs destNs h fuel fuel attempt ctr objs evs
    (Nat.le_refl _) hc]
  rw [Nat.sub_self, attemptLoop_zero, skipObjs_type]

/-- Reaching attempt `j` after collisions and hitting a
non-collision error: the operation fails at once with the message
naming the requested kind, after exactly `j - attempt + 1` creation
calls. -/
theorem attemptLoop_reach_other (env : LinkEnv) (pre : List Char) (r : ObjRef)
    (resNs destNs : Option Int) (fuel attempt ctr j : Nat) (objs : Objs) (evs : List LinkEvent)
    (m : String)
    (h : pre.length ≤ 11) (hj : attempt ≤ j) (hjf : j < attempt + fuel)
    (hc : ∀ k, attempt ≤ k → k < j → env.addResult k = .errExist)
    (ha : env.addResult j = .errOther m) :
    attemptLoop env pre r resNs destNs fuel attempt ctr objs evs =
      { objs := skipObjs env pre r objs ctr (j - attempt + 1),
        outcome := .failed (cannotCreateLinkMsg (objs.rd r).type m),
        events := evs ++ (List.range (j - attempt + 1)).map fun i =>
          LinkEvent.linkAdd resNs (attemptLink env pre (objs.rd r) ctr i) } := by
  rw [attemptLoop_skip env pre r resNs destNs h (j - attempt) fuel attempt ctr objs evs
    (by omega) (fun k hk1 hk2 => hc k hk1 (by omega))]
  obtain ⟨f', hf'⟩ : ∃ f', fuel - (j - attempt) = f' + 1 := ⟨fuel - (j - attempt) - 1, by omega⟩
  rw [hf']
  have hj' : attempt + (j - attempt) = j := by omega
  rw [hj']
  rw [attemptLoop_step_other env pre r resNs destNs f' j
    (ctr + drawsPer (objs.rd r).kind * (j - attempt)) _ _ m h ha]
  rw [skipObjs_attemptLink, skipObjs_type, Nat.add_zero, skipObjs_wr_next]
  congr 1
  rw [List.append_assoc, List.range_succ, List.map_append]
  simp

/-- Reaching attempt `j` after collisions and succeeding, but with the
post-creation `LinkByName` through the destination-scoped session
failing: the operation fails at once (no further attempt: exactly
`j - attempt + 1` creation calls happened). -/
theorem attemptLoop_reach_ok_lookupFail (env : LinkEnv) (pre : List Char) (r : ObjRef)
    (resNs destNs : Option Int) (fuel attempt ctr j : Nat) (objs : Objs) (evs : List LinkEvent)
    (libIdx : Int)
    (h : pre.length ≤ 11) (hj : attempt ≤ j) (hjf : j < attempt + fuel)
    (hc : ∀ k, attempt ≤ k → k < j → env.addResult k = .errExist)
    (ha : env.addResult j = .ok libIdx)
    (hlk : env.lookup destNs (attemptLink env pre (objs.rd r) ctr (j - attempt)).name = none) :
    attemptLoop env pre r resNs destNs fuel attempt ctr objs evs =
      { objs := (skipObjs env pre r objs ctr (j - attempt)).wr r
          { attemptLink env pre (objs.rd r) ctr (j - attempt) with index := libIdx },
        outcome := .failed indexLookupFailedMsg,
        events := (evs ++ (List.range (j - attempt + 1)).map fun i =>
            LinkEvent.linkAdd resNs (attemptLink env pre (objs.rd r) ctr i)) ++
          [LinkEvent.linkByName destNs
            (attemptLink env pre (objs.rd r) ctr (j - attempt)).name] } := by
  rw [attemptLoop_skip env pre r resNs destNs h (j - attempt) fuel attempt ctr objs evs
    (by omega) (fun k hk1 hk2 => hc k hk1 (by omega))]
  obtain ⟨f', hf'⟩ : ∃ f', fuel - (j - attempt) = f' + 1 := ⟨fuel - (j - attempt) - 1, by omega⟩
  rw [hf']
  have hj' : attempt + (j - attempt) = j := by omega
  rw [hj']
  have hlk0 : env.lookup destNs
      (attemptLink env pre ((skipObjs env pre r objs ctr (j - attempt)).rd r)
        (ctr + drawsPer (objs.rd r).kind * (j - attempt)) 0).name = none := by
    rw [skipObjs_attemptLink, Nat.add_zero]; exact hlk
  rw [attemptLoop_step_ok_lookupFail env pre r resNs destNs f' j
    (ctr + drawsPer (objs.rd r).kind * (j - attempt)) _ _ libIdx h ha hlk0]
  rw [skipObjs_attemptLink, Nat.add_zero]
  congr 1
  rw [List.append_assoc, List.range_succ, List.map_append]
  simp

/-- Reaching attempt `j` after collisions, succeeding, and the
post-creation lookup succeeding: the operation returns the copy with
the freshly drawn name and the index recovered by the lookup
(overwriting whatever index the library stamped), then registers the
single teardown action on the destination-scoped session. -/
theorem attemptLoop_reach_ok (env : LinkEnv) (pre : List Char) (r : ObjRef)
    (resNs destNs : Option Int) (fuel attempt ctr j : Nat) (objs : Objs) (evs : List LinkEvent)
    (libIdx idx : Int)
    (h : pre.length ≤ 11) (hj : attempt ≤ j) (hjf : j < attempt + fuel)
    (hc : ∀ k, attempt ≤ k → k < j → env.addResult k = .errExist)
    (ha : env.addResult j = .ok libIdx)
    (hlk : env.lookup destNs (attemptLink env pre (objs.rd r) ctr (j - attempt)).name =
      some idx) :
    attemptLoop env pre r resNs destNs fuel attempt ctr objs evs =
      { objs := (skipObjs env pre r objs ctr (j - attempt)).wr r
          { attemptLink env pre (objs.rd r) ctr (j - attempt) with index := idx },
        outcome := .ok { attemptLink env pre (objs.rd r) ctr (j - attempt) with index := idx },
        events := (evs ++ (List.range (j - attempt + 1)).map fun i =>
            LinkEvent.linkAdd resNs (attemptLink env pre (objs.rd r) ctr i)) ++
          [LinkEvent.linkByName destNs
            (attemptLink env pre (objs.rd r) ctr (j - attempt)).name,
           LinkEvent.cleanupRegistered destNs
            { attemptLink env pre (objs.rd r) ctr (j - attempt) with index := idx }] } := by
  rw [attemptLoop_skip env pre r resNs destNs h (j - attempt) fuel attempt ctr objs evs
    (by omega) (fun k hk1 hk2 => hc k hk1 (by omega))]
  obtain ⟨f', hf'⟩ : ∃ f', fuel - (j - attempt) = f' + 1 := ⟨fuel - (j - attempt) - 1, by omega⟩
  rw [hf']
  have hj' : attempt + (j - attempt) = j := by omega
  rw [hj']
  have hlk0 : env.lookup destNs
      (attemptLink env pre ((skipObjs env pre r objs ctr (j - attempt)).rd r)
        (ctr + drawsPer (objs.rd r).kind * (j - attempt)) 0).name = some idx := by
    rw [skipObjs_attemptLink, Nat.add_zero]; exact hlk
  rw [attemptLoop_step_ok env pre r resNs destNs f' j
    (ctr + drawsPer (objs.rd r).kind * (j - attempt)) _ _ libIdx idx h ha hlk0]
  rw [skipObjs_attemptLink, Nat.add_zero]
  congr 1
  rw [List.append_assoc, List.range_succ, List.map_append]
  simp

theorem addCount_nil : addCount [] = 0 := rfl

theorem addCount_one_add (ns : Option Int) (l : LinkDesc) :
    addCount [LinkEvent.linkAdd ns l] = 1 := rfl

/-- The loop never issues more creation calls than it has fuel. -/
theorem attemptLoop_bound (env : LinkEnv) (pre : List Char) (r : ObjRef)
    (resNs destNs : Option Int) :
    ∀ fuel attempt ctr objs evs,
      addCount (attemptLoop env pre r resNs destNs fuel attempt ctr objs evs).events ≤
        addCount evs + fuel := by
  intro fuel
  induction fuel with
  | zero =>
    intro attempt ctr objs evs
    rw [attemptLoop_zero]
    dsimp only
    omega
  | succ fuel ih =>
    intro attempt ctr objs evs
    by_cases h : pre.length ≤ 11
    · cases ha : env.addResult attempt with
      | errExist =>
        rw [attemptLoop_step_exist env pre r resNs destNs fuel attempt ctr objs evs h ha]
        have := ih (attempt + 1) (ctr + drawsPer (objs.rd r).kind)
          (objs.wr r (attemptLink env pre (objs.rd r) ctr 0))
          (evs ++ [LinkEvent.linkAdd resNs (attemptLink env pre (objs.rd r) ctr 0)])
        rw [addCount_append, addCount_one_add] at this
        omega
      | errOther m =>
        rw [attemptLoop_step_other env pre r resNs destNs fuel attempt ctr objs evs m h ha]
        dsimp only
        simp [addCount, List.filter_append, LinkEvent.isAdd]
      | ok libIdx =>
        cases hlk : env.lookup destNs (attemptLink env pre (objs.rd r) ctr 0).name with
        | none =>
          rw [attemptLoop_step_ok_lookupFail env pre r resNs destNs fuel attempt ctr objs evs
            libIdx h ha hlk]
          dsimp only
          simp [addCount, List.filter_append, LinkEvent.isAdd]
        | some idx =>
          rw [attemptLoop_step_ok env pre r resNs destNs fuel attempt ctr objs evs
            libIdx idx h ha hlk]
          dsimp only
          simp [addCount, List.filter_append, LinkEvent.isAdd]
    · rw [attemptLoop_preTooLong env pre r resNs destNs fuel attempt ctr objs evs (by omega)]
      dsimp only
      omega

/-- Frame property of the loop: every field write goes through the
copy object; the caller's object is untouched. -/
theorem attemptLoop_caller (env : LinkEnv) (pre : List Char)
    (resNs destNs : Option Int) :
    ∀ fuel attempt ctr objs evs,
      (attemptLoop env pre .copy resNs destNs fuel attempt ctr objs evs).objs.caller =
        objs.caller := by
  intro fuel
  induction fuel with
  | zero =>
    intro attempt ctr objs evs
    rw [attemptLoop_zero]
  | succ fuel ih =>
    intro attempt ctr objs evs
    by_cases h : pre.length ≤ 11
    · cases ha : env.addResult attempt with
      | errExist =>
        rw [attemptLoop_step_exist env pre .copy resNs destNs fuel attempt ctr objs evs h ha]
        rw [ih]
        exact Objs.wr_copy_caller _ _
      | errOther m =>
        rw [attemptLoop_step_other env pre .copy resNs destNs fuel attempt ctr objs evs m h ha]
        rfl
      | ok libIdx =>
        cases hlk : env.lookup destNs (attemptLink env pre (objs.rd .copy) ctr 0).name with
        | none =>
          rw [attemptLoop_step_ok_lookupFail env pre .copy resNs destNs fuel attempt ctr objs
            evs libIdx h ha hlk]
          rfl
        | some idx =>
          rw [attemptLoop_step_ok env pre .copy resNs destNs fuel attempt ctr objs evs
            libIdx idx h ha hlk]
          rfl
    · rw [attemptLoop_preTooLong env pre .copy resNs destNs fuel attempt ctr objs evs (by omega)]

/-- A successful loop outcome is exactly the final value of the copy
object: the generated name, the peer name and the recovered index were
assigned to the copy that is returned. -/
theorem attemptLoop_ok_copy (env : LinkEnv) (pre : List Char)
    (resNs destNs : Option Int) :
    ∀ fuel attempt ctr objs evs l',
      (attemptLoop env pre .copy resNs destNs fuel attempt ctr objs evs).outcome = .ok l' →
      (attemptLoop env pre .copy resNs destNs fuel attempt ctr objs evs).objs.copy = l' := by
  intro fuel
  induction fuel with
  | zero => intro attempt ctr objs evs l' hok; rw [attemptLoop_zero] at hok; cases hok
  | succ fuel ih =>
    intro attempt ctr objs evs l' hok
    by_cases h : pre.length ≤ 11
    · cases ha : env.addResult attempt with
      | errExist =>
        rw [attemptLoop_step_exist env pre .copy resNs destNs fuel attempt ctr objs evs h ha]
          at hok ⊢
        exact ih _ _ _ _ _ hok
      | errOther m =>
        rw [attemptLoop_step_other env pre .copy resNs destNs fuel attempt ctr objs evs m h ha]
          at hok
        cases hok
      | ok libIdx =>
        cases hlk : env.lookup destNs (attemptLink env pre (objs.rd .copy) ctr 0).name with
        | none =>
          rw [attemptLoop_step_ok_lookupFail env pre .copy resNs destNs fuel attempt ctr objs
            evs libIdx h ha hlk] at hok
          cases hok
        | some idx =>
          rw [attemptLoop_step_ok env pre .copy resNs destNs fuel attempt ctr objs evs
            libIdx idx h ha hlk] at hok ⊢
          cases hok
          rfl
    · rw [attemptLoop_preTooLong env pre .copy resNs destNs fuel attempt ctr objs evs
        (by omega)] at hok
      cases hok

/-! ### Setting up the two sessions of `NewTransient` -/

/-- The scope of the resolution ("link") session `linknetnsh`: the
wrapped link-namespace fd when given, else the caller's current
namespace. -/
def resNsOf (inlink : InLink) : Option Int :=
  match (unwrapLink inlink).2 with
  | some (.nsFd fd) => some fd
  | _ => none

/-- The scope of the destination session `netnsh`: the descriptor's
destination-namespace fd when set, else the caller's current
namespace. -/
def destNsOf (inlink : InLink) : Option Int :=
  match (unwrapLink inlink).1.nspace with
  | some (.nsFd fd) => some fd
  | _ => none

/-- The kernel events of a successful session setup. -/
def setupEvents (inlink : InLink) : List LinkEvent :=
  (match (unwrapLink inlink).2 with
   | some (.nsFd fd) => [.handleOpen (some fd)]
   | _ => []) ++
  (match (unwrapLink inlink).1.nspace with
   | none => [.procSelfNetnsOpen, .handleOpen none]
   | some (.nsFd fd) => [.handleOpen (some fd)]
   | some .otherKind => [])

/-- The setup of `NewTransient` passes validation and reaches the
attempt loop: both namespace annotations are absent or `NsFd`, and the
required handle/procfs operations succeed. -/
def setupOk (env : LinkEnv) (inlink : InLink) : Prop :=
  (InLink.attrs inlink).nspace ≠ some .otherKind ∧
  (unwrapLink inlink).2 ≠ some .otherKind ∧
  (match (unwrapLink inlink).2 with
   | some (.nsFd fd) => env.handleAt fd = true
   | _ => True) ∧
  (match (unwrapLink inlink).1.nspace with
   | none => env.procNetnsOpenOk = true ∧ env.handleAtCurrent = true
   | some (.nsFd fd) => env.handleAt fd = true
   | some .otherKind => True)

theorem addCount_setupEvents (inlink : InLink) : addCount (setupEvents inlink) = 0 := by
  cases inlink with
  | bare l =>
    rcases hn : l.nspace with _ | r
    · simp [setupEvents, unwrapLink, hn, addCount, LinkEvent.isAdd]
    · cases r <;> simp [setupEvents, unwrapLink, hn, addCount, LinkEvent.isAdd]
  | wrapped l lns =>
    rcases hn : l.nspace with _ | r <;> rcases hl : lns with _ | q
    · simp [setupEvents, unwrapLink, hn, addCount, LinkEvent.isAdd]
    · cases q <;> simp [setupEvents, unwrapLink, hn, addCount, LinkEvent.isAdd]
    · cases r <;> simp [setupEvents, unwrapLink, hn, addCount, LinkEvent.isAdd]
    · cases r <;> cases q <;> simp [setupEvents, unwrapLink, hn, addCount, LinkEvent.isAdd]

/-- When the setup succeeds, `NewTransient` is exactly the attempt
loop run on the deep copy, with 10 attempts of fuel and the
appropriately scoped sessions. -/
theorem NewTransient_eq_loop (env : LinkEnv) (inlink : InLink) (pre : List Char)
    (hok : setupOk env inlink) :
    NewTransient env inlink pre =
      attemptLoop env pre .copy (resNsOf inlink) (destNsOf inlink) 10 1 0
        ⟨(unwrapLink inlink).1, (unwrapLink inlink).1⟩ (setupEvents inlink) := by
  obtain ⟨h1, h2, h3, h4⟩ := hok
  cases inlink with
  | bare l =>
    simp only [unwrapLink, InLink.attrs] at h1 h2 h3 h4 ⊢
    rcases hn : l.nspace with _ | r
    · rw [hn] at h4
      simp [NewTransient, unwrapLink, InLink.attrs, Objs.rd, hn, h4.1, h4.2, resNsOf, destNsOf,
        setupEvents]
    · cases r with
      | nsFd fd =>
        rw [hn] at h4
        simp [NewTransient, unwrapLink, InLink.attrs, Objs.rd, hn, h4, resNsOf, destNsOf, setupEvents]
      | otherKind => exact absurd hn h1
  | wrapped l lns =>
    simp only [unwrapLink, InLink.attrs] at h1 h2 h3 h4 ⊢
    rcases hl : lns with _ | q
    · rcases hn : l.nspace with _ | r
      · rw [hn] at h4
        simp [NewTransient, unwrapLink, InLink.attrs, Objs.rd, hn, h4.1, h4.2, resNsOf, destNsOf,
          setupEvents]
      · cases r with
        | nsFd fd =>
          rw [hn] at h4
          simp [NewTransient, unwrapLink, InLink.attrs, Objs.rd, hn, h4, resNsOf, destNsOf, setupEvents]
        | otherKind => exact absurd hn h1
    · cases q with
      | nsFd fd0 =>
        rw [hl] at h3
        rcases hn : l.nspace with _ | r
        · rw [hn] at h4
          simp [NewTransient, unwrapLink, InLink.attrs, Objs.rd, hn, h3, h4.1, h4.2, resNsOf, destNsOf,
            setupEvents]
        · cases r with
          | nsFd fd =>
            rw [hn] at h4
            simp [NewTransient, unwrapLink, InLink.attrs, Objs.rd, hn, h3, h4, resNsOf, destNsOf,
              setupEvents]
          | otherKind => exact absurd hn h1
      | otherKind => exact absurd hl h2

/-- Every `NewTransient` run either reaches the attempt loop (after a
successful setup) or stops during validation/setup with a failure,
without having issued a single creation call and without having
touched either descriptor object. -/
theorem NewTransient_run (env : LinkEnv) (inlink : InLink) (pre : List Char) :
    NewTransient env inlink pre =
      attemptLoop env pre .copy (resNsOf inlink) (destNsOf inlink) 10 1 0
        ⟨(unwrapLink inlink).1, (unwrapLink inlink).1⟩ (setupEvents inlink) ∨
    ((∃ m, (NewTransient env inlink pre).outcome = .failed m) ∧
      addCount (NewTransient env inlink pre).events = 0 ∧
      (NewTransient env inlink pre).objs = ⟨(unwrapLink inlink).1, (unwrapLink inlink).1⟩) := by
  cases inlink with
  | bare l =>
    rcases hn : l.nspace with _ | r
    · by_cases hp : env.procNetnsOpenOk = true
      · by_cases hc : env.handleAtCurrent = true
        · exact Or.inl (NewTransient_eq_loop env (.bare l) pre
            ⟨by simp [InLink.attrs, hn], by simp [unwrapLink], by simp [unwrapLink],
             by simp [unwrapLink, hn, hp, hc]⟩)
        · refine Or.inr ⟨⟨"cannot create NETLINK handle for network namespace", ?_⟩, ?_, ?_⟩ <;>
            simp [NewTransient, unwrapLink, InLink.attrs, Objs.rd, hn, hp, hc, addCount,
              LinkEvent.isAdd]
      · refine Or.inr ⟨⟨"cannot determine current network namespace from procfs", ?_⟩, ?_, ?_⟩ <;>
          simp [NewTransient, unwrapLink, InLink.attrs, Objs.rd, hn, hp, addCount,
            LinkEvent.isAdd]
    · cases r with
      | nsFd fd =>
        by_cases hf : env.handleAt fd = true
        · exact Or.inl (NewTransient_eq_loop env (.bare l) pre
            ⟨by simp [InLink.attrs, hn], by simp [unwrapLink], by simp [unwrapLink],
             by simp [unwrapLink, hn, hf]⟩)
        · refine Or.inr ⟨⟨"cannot create NETLINK handle", ?_⟩, ?_, ?_⟩ <;>
            simp [NewTransient, unwrapLink, InLink.attrs, Objs.rd, hn, hf, addCount,
              LinkEvent.isAdd]
      | otherKind =>
        refine Or.inr
          ⟨⟨"link.Attrs().Namespace reference must be nil or a netlink.NsFd", ?_⟩, ?_, ?_⟩ <;>
          simp [NewTransient, unwrapLink, InLink.attrs, hn, addCount]
  | wrapped l lns =>
    rcases hn : l.nspace with _ | r
    · rcases hl : lns with _ | q
      · by_cases hp : env.procNetnsOpenOk = true
        · by_cases hc : env.handleAtCurrent = true
          · exact Or.inl (NewTransient_eq_loop env (.wrapped l none) pre
              ⟨by simp [InLink.attrs, hn], by simp [unwrapLink], by simp [unwrapLink],
               by simp [unwrapLink, hn, hp, hc]⟩)
          · refine Or.inr ⟨⟨"cannot create NETLINK handle for network namespace", ?_⟩, ?_, ?_⟩ <;>
              simp [NewTransient, unwrapLink, InLink.attrs, Objs.rd, hn, hp, hc, addCount,
                LinkEvent.isAdd]
        · refine Or.inr
            ⟨⟨"cannot determine current network namespace from procfs", ?_⟩, ?_, ?_⟩ <;>
            simp [NewTransient, unwrapLink, InLink.attrs, Objs.rd, hn, hp, addCount,
              LinkEvent.isAdd]
      · cases q with
        | nsFd fd0 =>
          by_cases hf0 : env.handleAt fd0 = true
          · by_cases hp : env.procNetnsOpenOk = true
            · by_cases hc : env.handleAtCurrent = true
              · exact Or.inl (NewTransient_eq_loop env (.wrapped l (some (.nsFd fd0))) pre
                  ⟨by simp [InLink.attrs, hn], by simp [unwrapLink], by simp [unwrapLink, hf0],
                   by simp [unwrapLink, hn, hp, hc]⟩)
              · refine Or.inr
                  ⟨⟨"cannot create NETLINK handle for network namespace", ?_⟩, ?_, ?_⟩ <;>
                  simp [NewTransient, unwrapLink, InLink.attrs, Objs.rd, hn, hf0, hp, hc,
                    addCount, LinkEvent.isAdd]
            · refine Or.inr
                ⟨⟨"cannot determine current network namespace from procfs", ?_⟩, ?_, ?_⟩ <;>
                simp [NewTransient, unwrapLink, InLink.attrs, Objs.rd, hn, hf0, hp, addCount,
                  LinkEvent.isAdd]
          · refine Or.inr
              ⟨⟨"cannot create NETLINK handle for link network namespace", ?_⟩, ?_, ?_⟩ <;>
              simp [NewTransient, unwrapLink, InLink.attrs, Objs.rd, hn, hf0, addCount,
                LinkEvent.isAdd]
        | otherKind =>
          refine Or.inr
            ⟨⟨"wrapped namespace.LinkNamespace must be nil or a netlink.NsFd", ?_⟩, ?_, ?_⟩ <;>
            simp [NewTransient, unwrapLink, InLink.attrs, hn, addCount]
    · cases r with
      | nsFd fd =>
        rcases hl : lns with _ | q
        · by_cases hf : env.handleAt fd = true
          · exact Or.inl (NewTransient_eq_loop env (.wrapped l none) pre
              ⟨by simp [InLink.attrs, hn], by simp [unwrapLink], by simp [unwrapLink],
               by simp [unwrapLink, hn, hf]⟩)
          · refine Or.inr ⟨⟨"cannot create NETLINK handle", ?_⟩, ?_, ?_⟩ <;>
              simp [NewTransient, unwrapLink, InLink.attrs, Objs.rd, hn, hf, addCount,
                LinkEvent.isAdd]
        · cases q with
          | nsFd fd0 =>
            by_cases hf0 : env.handleAt fd0 = true
            · by_cases hf : env.handleAt fd = true
              · exact Or.inl (NewTransient_eq_loop env (.wrapped l (some (.nsFd fd0))) pre
                  ⟨by simp [InLink.attrs, hn], by simp [unwrapLink],
                   by simp [unwrapLink, hf0], by simp [unwrapLink, hn, hf]⟩)
              · refine Or.inr ⟨⟨"cannot create NETLINK handle", ?_⟩, ?_, ?_⟩ <;>
                  simp [NewTransient, unwrapLink, InLink.attrs, Objs.rd, hn, hf0, hf,
                    addCount, LinkEvent.isAdd]
            · refine Or.inr
                ⟨⟨"cannot create NETLINK handle for link network namespace", ?_⟩, ?_, ?_⟩ <;>
                simp [NewTransient, unwrapLink, InLink.attrs, Objs.rd, hn, hf0, addCount,
                  LinkEvent.isAdd]
          | otherKind =>
            refine Or.inr
              ⟨⟨"wrapped namespace.LinkNamespace must be nil or a netlink.NsFd", ?_⟩, ?_, ?_⟩ <;>
              simp [NewTransient, unwrapLink, InLink.attrs, hn, addCount]
      | otherKind =>
        refine Or.inr
          ⟨⟨"link.Attrs().Namespace reference must be nil or a netlink.NsFd", ?_⟩, ?_, ?_⟩ <;>
          simp [NewTransient, unwrapLink, InLink.attrs, hn, addCount]

/-! ### The claims about `link.NewTransient` -/

/-- C1: in every `link.NewTransient` call the kernel creation call is
attempted at most 10 times; a collision-class failure is followed by a
further attempt with a freshly generated name — the trace of creation
calls is exactly the per-attempt fresh draws of `attemptLink` (which
for VETH kinds also draws a fresh peer name each attempt); any other
failure aborts at once with a message naming the requested kind; ten
collisions abort with the "too many failed attempts" message naming
the kind. -/
theorem C1_NewTransient_retry_spec (env : LinkEnv) (inlink : InLink) (pre : List Char) :
    addCount (NewTransient env inlink pre).events ≤ 10 ∧
    (setupOk env inlink → pre.length ≤ 11 →
      (∀ k, 1 ≤ k → k ≤ 10 → env.addResult k = .errExist) →
      (NewTransient env inlink pre).outcome =
        .failed (tooManyLinkAttemptsMsg (unwrapLink inlink).1.type) ∧
      (NewTransient env inlink pre).events =
        setupEvents inlink ++ (List.range 10).map fun i =>
          LinkEvent.linkAdd (resNsOf inlink) (attemptLink env pre (unwrapLink inlink).1 0 i)) ∧
    (∀ j m, setupOk env inlink → pre.length ≤ 11 → 1 ≤ j → j ≤ 10 →
      (∀ k, 1 ≤ k → k < j → env.addResult k = .errExist) →
      env.addResult j = .errOther m →
      (NewTransient env inlink pre).outcome =
        .failed (cannotCreateLinkMsg (unwrapLink inlink).1.type m) ∧
      (NewTransient env inlink pre).events =
        setupEvents inlink ++ (List.range j).map fun i =>
          LinkEvent.linkAdd (resNsOf inlink) (attemptLink env pre (unwrapLink inlink).1 0 i)) := by
  refine ⟨?_, ?_, ?_⟩
  · rcases NewTransient_run env inlink pre with hrun | hrun
    · rw [hrun]
      have hb := attemptLoop_bound env pre .copy (resNsOf inlink) (destNsOf inlink) 10 1 0
        ⟨(unwrapLink inlink).1, (unwrapLink inlink).1⟩ (setupEvents inlink)
      rw [addCount_setupEvents] at hb
      omega
    · rw [hrun.2.1]
      omega
  · intro hok hpre hc
    rw [NewTransient_eq_loop env inlink pre hok]
    rw [attemptLoop_allExist env pre .copy (resNsOf inlink) (destNsOf inlink) 10 1 0
      ⟨(unwrapLink inlink).1, (unwrapLink inlink).1⟩ (setupEvents inlink) hpre
      (fun k hk1 hk2 => hc k hk1 (by omega))]
    exact ⟨rfl, rfl⟩
  · intro j m hok hpre hj1 hj10 hc ha
    rw [NewTransient_eq_loop env inlink pre hok]
    rw [attemptLoop_reach_other env pre .copy (resNsOf inlink) (destNsOf inlink) 10 1 0 j
      ⟨(unwrapLink inlink).1, (unwrapLink inlink).1⟩ (setupEvents inlink) m hpre hj1
      (by omega) (fun k hk1 hk2 => hc k hk1 hk2) ha]
    have hjeq : j - 1 + 1 = j := by omega
    rw [hjeq]
    exact ⟨rfl, rfl⟩

/-- A link engine environment in which every creation attempt hits a
name collision. -/
def allCollideEnv : LinkEnv :=
  { rnd := fun _ _ => 0, handleAt := fun _ => true, handleAtCurrent := true,
    procNetnsOpenOk := true, addResult := fun _ => .errExist,
    lookup := fun _ _ => some 7 }

/-- A link engine environment in which creation succeeds at once (the
library stamping the wrong index 99) and lookup resolves index 7. -/
def okEnv : LinkEnv :=
  { rnd := fun _ _ => 0, handleAt := fun _ => true, handleAtCurrent := true,
    procNetnsOpenOk := true, addResult := fun _ => .ok 99,
    lookup := fun _ _ => some 7 }

/-- A plain dummy-kind link template. -/
def dummyLink : LinkDesc :=
  { name := ['e', 't', 'h', '0'], index := 0, nspace := none, kind := .nonVeth "dummy" }

theorem setupOk_bare_dummy (env : LinkEnv) (hp : env.procNetnsOpenOk = true)
    (hc : env.handleAtCurrent = true) : setupOk env (.bare dummyLink) := by
  refine ⟨?_, ?_, ?_, ?_⟩ <;> simp [InLink.attrs, unwrapLink, dummyLink, hp, hc]

/-- Witness for C1: ten collisions on a plain dummy template end in
the "too many failed attempts" failure naming the kind. -/
theorem C1_NewTransient_retry_spec_witness :
    (NewTransient allCollideEnv (.bare dummyLink) ['d', 'm', 'y', '-']).outcome =
      .failed (tooManyLinkAttemptsMsg "dummy") := by
  have h := (C1_NewTransient_retry_spec allCollideEnv (.bare dummyLink)
    ['d', 'm', 'y', '-']).2.1 (setupOk_bare_dummy allCollideEnv rfl rfl)
    (by decide) (fun k _ _ => rfl)
  exact h.1

/-- C2: when an attempt succeeds, the returned descriptor's index is
unconditionally overwritten with the result of the name lookup through
the destination-scoped session (destination namespace if set, else the
caller's current namespace) — independent of the index the library
stamped — and a failing lookup fails the operation with no further
attempt. -/
theorem C2_NewTransient_index_recovery (env : LinkEnv) (inlink : InLink) (pre : List Char)
    (j : Nat) (libIdx : Int)
    (hok : setupOk env inlink) (hpre : pre.length ≤ 11) (hj1 : 1 ≤ j) (hj10 : j ≤ 10)
    (hc : ∀ k, 1 ≤ k → k < j → env.addResult k = .errExist)
    (ha : env.addResult j = .ok libIdx) :
    (∀ idx, env.lookup (destNsOf inlink)
        (attemptLink env pre (unwrapLink inlink).1 0 (j - 1)).name = some idx →
      (NewTransient env inlink pre).outcome =
        .ok { attemptLink env pre (unwrapLink inlink).1 0 (j - 1) with index := idx } ∧
      (NewTransient env inlink pre).events =
        (setupEvents inlink ++ (List.range j).map fun i =>
          LinkEvent.linkAdd (resNsOf inlink) (attemptLink env pre (unwrapLink inlink).1 0 i)) ++
        [LinkEvent.linkByName (destNsOf inlink)
            (attemptLink env pre (unwrapLink inlink).1 0 (j - 1)).name,
         LinkEvent.cleanupRegistered (destNsOf inlink)
            { attemptLink env pre (unwrapLink inlink).1 0 (j - 1) with index := idx }]) ∧
    (env.lookup (destNsOf inlink)
        (attemptLink env pre (unwrapLink inlink).1 0 (j - 1)).name = none →
      (NewTransient env inlink pre).outcome = .failed indexLookupFailedMsg ∧
      addCount (NewTransient env inlink pre).events = j) := by
  constructor
  · intro idx hlk
    rw [NewTransient_eq_loop env inlink pre hok]
    rw [attemptLoop_reach_ok env pre .copy (resNsOf inlink) (destNsOf inlink) 10 1 0 j
      ⟨(unwrapLink inlink).1, (unwrapLink inlink).1⟩ (setupEvents inlink) libIdx idx hpre hj1
      (by omega) (fun k hk1 hk2 => hc k hk1 hk2) ha hlk]
    have hjeq : j - 1 + 1 = j := by omega
    rw [hjeq]
    exact ⟨rfl, rfl⟩
  · intro hlk
    rw [NewTransient_eq_loop env inlink pre hok]
    rw [attemptLoop_reach_ok_lookupFail env pre .copy (resNsOf inlink) (destNsOf inlink)
      10 1 0 j ⟨(unwrapLink inlink).1, (unwrapLink inlink).1⟩ (setupEvents inlink) libIdx
      hpre hj1 (by omega) (fun k hk1 hk2 => hc k hk1 hk2) ha hlk]
    refine ⟨rfl, ?_⟩
    have hjeq : j - 1 + 1 = j := by omega
    simp only [addCount_append, addCount_setupEvents, addCount_map_add, hjeq]
    have : addCount [LinkEvent.linkByName (destNsOf inlink)
        (attemptLink env pre ((Objs.mk (unwrapLink inlink).1 (unwrapLink inlink).1).rd
          ObjRef.copy) 0 (j - 1)).name] = 0 := rfl
    omega

/-- Witness for C2: creation succeeds on the first attempt with the
library stamping index 99, and the returned descriptor carries the
looked-up index 7 instead. -/
theorem C2_NewTransient_index_recovery_witness :
    (NewTransient okEnv (.bare dummyLink) ['d', 'm', 'y', '-']).outcome =
      .ok { attemptLink okEnv ['d', 'm', 'y', '-'] dummyLink 0 0 with index := 7 } := by
  have h := (C2_NewTransient_index_recovery okEnv (.bare dummyLink) ['d', 'm', 'y', '-']
    1 99 (setupOk_bare_dummy okEnv rfl rfl) (by decide) (by decide) (by decide)
    (fun k hk1 hk2 => absurd hk2 (Nat.not_lt.mpr hk1)) rfl).1 7 rfl
  exact h.1

/-- C3: a descriptor whose destination-namespace attribute is present
but not a `netlink.NsFd`, or whose wrapped resolution-namespace
annotation is present but not a `netlink.NsFd`, fails validation with
an empty kernel event trace: no creation call and no kernel
interaction at all happens. -/
theorem C3_NewTransient_validation (env : LinkEnv) (inlink : InLink) (pre : List Char)
    (hbad : (InLink.attrs inlink).nspace = some .otherKind ∨
      (unwrapLink inlink).2 = some .otherKind) :
    (∃ m, (NewTransient env inlink pre).outcome = .failed m) ∧
    (NewTransient env inlink pre).events = [] := by
  by_cases h1 : (InLink.attrs inlink).nspace = some .otherKind
  · constructor
    · exact ⟨"link.Attrs().Namespace reference must be nil or a netlink.NsFd",
        by simp [NewTransient, h1]⟩
    · simp [NewTransient, h1]
  · rcases hbad with hbad | hbad
    · exact absurd hbad h1
    · cases inlink with
      | bare l => simp [unwrapLink] at hbad
      | wrapped l lns =>
        simp only [unwrapLink] at hbad
        subst hbad
        simp only [InLink.attrs] at h1
        constructor
        · exact ⟨"wrapped namespace.LinkNamespace must be nil or a netlink.NsFd",
            by simp [NewTransient, unwrapLink, InLink.attrs, h1]⟩
        · simp [NewTransient, unwrapLink, InLink.attrs, h1]

/-- A template whose destination-namespace attribute is a non-`NsFd`
reference. -/
def badNsLink : LinkDesc :=
  { name := [], index := 0, nspace := some .otherKind, kind := .nonVeth "dummy" }

/-- Witness for C3 at a concrete malformed template. -/
theorem C3_NewTransient_validation_witness :
    (∃ m, (NewTransient allCollideEnv (.bare badNsLink) ['d', 'm', 'y', '-']).outcome =
      .failed m) ∧
    (NewTransient allCollideEnv (.bare badNsLink) ['d', 'm', 'y', '-']).events = [] :=
  C3_NewTransient_validation allCollideEnv (.bare badNsLink) ['d', 'm', 'y', '-']
    (Or.inl rfl)

/-- C4: the caller's (unwrapped) template object is returned exactly
as it was passed in — the deep copy is the only object the engine
mutates — and a successful outcome is exactly the final state of that
copy, which received the generated name, the generated peer name and
the recovered index. -/
theorem C4_NewTransient_template_preserved (env : LinkEnv) (inlink : InLink)
    (pre : List Char) :
    (NewTransient env inlink pre).objs.caller = (unwrapLink inlink).1 ∧
    (∀ l', (NewTransient env inlink pre).outcome = .ok l' →
      (NewTransient env inlink pre).objs.copy = l') := by
  rcases NewTransient_run env inlink pre with hrun | hrun
  · constructor
    · rw [hrun]
      exact attemptLoop_caller env pre (resNsOf inlink) (destNsOf inlink) 10 1 0
        ⟨(unwrapLink inlink).1, (unwrapLink inlink).1⟩ (setupEvents inlink)
    · intro l' hok
      rw [hrun] at hok ⊢
      exact attemptLoop_ok_copy env pre (resNsOf inlink) (destNsOf inlink) 10 1 0
        ⟨(unwrapLink inlink).1, (unwrapLink inlink).1⟩ (setupEvents inlink) l' hok
  · constructor
    · rw [hrun.2.2]
    · intro l' hok
      obtain ⟨m, hm⟩ := hrun.1
      rw [hm] at hok
      cases hok

/-- Witness for C4: after a successful creation the caller's template
is unchanged and the returned value is the copy. -/
theorem C4_NewTransient_template_preserved_witness :
    (NewTransient okEnv (.bare dummyLink) ['d', 'm', 'y', '-']).objs.caller = dummyLink ∧
    (NewTransient okEnv (.bare dummyLink) ['d', 'm', 'y', '-']).objs.copy =
      { attemptLink okEnv ['d', 'm', 'y', '-'] dummyLink 0 0 with index := 7 } := by
  have h := C4_NewTransient_template_preserved okEnv (.bare dummyLink) ['d', 'm', 'y', '-']
  refine ⟨h.1, h.2 _ ?_⟩
  decide

/-! ## The netdevsim composite-device engine (`netdevsim/peer.go`)

`newTransient` creates a bus device through the sysfs pseudo-files,
waits for it to materialize, configures VFs, discovers the port
interfaces through the devlink side channel and renames them.  The
`removeNetdevsim` flag plus the function-level `defer` implement the
no-leak guarantee; the model makes this visible by computing the body
to an `NdsRun` (flag, current `id`, outcome, events) and having the
wrapper append the deferred `del_device` write exactly when the flag
is still set. -/

/-- `NetdevsimPrefix = "ndsi-"` as a character list. -/
def NetdevsimPrefixList : List Char := "ndsi-".toList

/-- `netdevSimBus = "netdevsim"` as a character list. -/
def netdevSimBusList : List Char := "netdevsim".toList

/-- One devlink port enumeration entry (bus, bus-device name, port
ordinal, current kernel-assigned interface name). -/
structure DevlinkPort where
  bus : List Char
  device : List Char
  port : Nat
  name : List Char
deriving DecidableEq, Repr

/-- `portNifnames` from `netdevsim/peer.go`: dump all ports, keep the
ones of bus "netdevsim" and device `netdevsim<id>`, and place each
port's interface name at its ordinal (growing the zero-padded list as
needed). -/
def portNifnames (ports : List DevlinkPort) (id : Nat) : List (List Char) :=
  let devname := netdevsimDevicePrefix ++ Nat.toDigits 10 id
  ports.foldl (fun nifnames port =>
    if port.bus ≠ netdevSimBusList ∨ port.device ≠ devname then nifnames
    else
      let nifnames2 := if nifnames.length ≤ port.port
        then nifnames ++ List.replicate (port.port + 1 - nifnames.length) []
        else nifnames
      nifnames2.set port.port port.name) []

/-- The `Options` record of the netdevsim package (defaults: one port,
one queue pair, `NetnsFd = -1` meaning "current namespace"). -/
structure NdsOptions where
  hasID : Bool
  id : Nat
  ports : Nat
  queueCount : Nat
  netnsFd : Int
  maxVFs : Nat
deriving DecidableEq, Repr

/-- The port descriptors' namespace attribute: set exactly when the
`InNamespace` option was given (`options.NetnsFd >= 0`). -/
def netnsRefOf (options : NdsOptions) : Option NsRef :=
  if options.netnsFd ≥ 0 then some (.nsFd options.netnsFd) else none

/-- The externally visible steps of a netdevsim creation. -/
inductive NdsEvent
  | newDeviceWrite (id ports queues : Nat)
  | delDeviceWrite (id : Nat)
  | setVFsWrite (id vfs : Nat)
  | renameCall (src dst : List Char)
  | teardownRegistered (id : Nat)
deriving DecidableEq, Repr

/-- The environment a netdevsim creation runs against: whether opening
the devlink connection works, the devices-directory listing per
attempt (`none` = read error), the error of the `new_device` write per
attempt (`none` = success), whether the device materializes within the
bounded wait, the `sriov_numvfs` write error, the devlink port dump,
the random streams of the `c`-th `RandomNifname` call, and the success
of the `c`-th `LinkSetName` call. -/
structure NdsEnv where
  devlinkOk : Bool
  listing : Nat → Option (List (List Char))
  newDeviceErr : Nat → Option String
  materialize : Nat → Bool
  vfsErr : Nat → Option String
  ports : Nat → List DevlinkPort
  rnd : Nat → Nat → Nat
  renameOk : Nat → Bool

/-- The state of the Go function just before its deferred cleanup
fires: the `removeNetdevsim` flag, the current value of `id`, the
outcome, and the events so far. -/
structure NdsRun where
  removeFlag : Bool
  id : Nat
  outcome : Outcome (Nat × List LinkDesc)
  events : List NdsEvent
deriving DecidableEq, Repr

/-- The final result after the deferred cleanup ran. -/
structure NdsResult where
  outcome : Outcome (Nat × List LinkDesc)
  events : List NdsEvent
deriving DecidableEq, Repr

/-- Decimal rendering of a Nat, as Go's `strconv.FormatUint(id, 10)`. -/
def natStr (n : Nat) : String := String.mk (Nat.toDigits 10 n)

/-- `fmt.Sprintf("cannot create a netdevsim with ID %d, reason: %s", ...)`. -/
def cannotCreateNdsMsg (id : Nat) (e : String) : String :=
  "cannot create a netdevsim with ID " ++ natStr id ++ ", reason: " ++ e

/-- `Expect` description of a failed `lowestAvailableID`. -/
def cannotDetermineIDMsg : String := "cannot determine available ID"

/-- The `Eventually ... BeADirectory` failure description. -/
def materializeFailMsg (id : Nat) : String :=
  "netdevsim with ID " ++ natStr id ++ " failed to materialize"

/-- `fmt.Sprintf("cannot set maximum number of %d SR-IOV VFs on netdev with ID %d, reason: %s", ...)`. -/
def vfsFailMsg (vfs id : Nat) (e : String) : String :=
  "cannot set maximum number of " ++ natStr vfs ++ " SR-IOV VFs on netdev with ID " ++
    natStr id ++ ", reason: " ++ e

/-- The rename retry bound failure message. -/
def renameTooManyMsg : String :=
  "too many failed attempts to generate a random port network interface name"

/-- The device creation retry bound failure message. -/
def ndsTooManyMsg : String := "too many failed attempts to create a transient netdevsim"

/-- `Successful(devlink.New())` failure description. -/
def devlinkFailMsg : String := "cannot open devlink connection"

/-- The inner rename loop (`for attempt := 1; attempt <= 10`): draw a
random `ndsi-` name (call counter `c`), try `LinkSetName`, retry on
any error, give up after 10 attempts. -/
def renamePort (env : NdsEnv) (nifname : List Char) :
    Nat → Nat → Outcome (List Char × Nat) × List NdsEvent
  | 0, _ => (.failed renameTooManyMsg, [])
  | fuel + 1, c =>
    match RandomNifname (env.rnd c) NetdevsimPrefixList with
    | none => (.failed (prefixTooLongMsg NetdevsimPrefixList), [])
    | some randomname =>
      if env.renameOk c then (.ok (randomname, c + 1), [.renameCall nifname randomname])
      else
        let rec' := renamePort env nifname fuel (c + 1)
        (rec'.1, .renameCall nifname randomname :: rec'.2)

/-- The `nextnif` loop over the discovered port names, accumulating
one freshly named descriptor per port in ordinal order. -/
def renamePorts (env : NdsEnv) (netnsRef : Option NsRef) :
    List (List Char) → Nat → Outcome (List LinkDesc × Nat) × List NdsEvent
  | [], c => (.ok ([], c), [])
  | nif :: rest, c =>
    match renamePort env nif 10 c with
    | (.failed m, evs) => (.failed m, evs)
    | (.ok (rname, c'), evs) =>
      match renamePorts env netnsRef rest c' with
      | (.failed m, evs2) => (.failed m, evs ++ evs2)
      | (.ok (links, c''), evs2) =>
        (.ok ({ name := rname, index := 0, nspace := netnsRef,
                kind := .nonVeth "device" } :: links, c''), evs ++ evs2)

/-- The per-attempt device ID: the caller-specified one, else the
lowest available ID from the devices-directory listing (`none` listing
= `Expect` failure). -/
def attemptId (env : NdsEnv) (options : NdsOptions) (attempt : Nat) : Outcome Nat :=
  if options.hasID then .ok options.id
  else
    match env.listing attempt with
    | none => .failed cannotDetermineIDMsg
    | some entries => .ok (lowestAvailableID entries)

/-- Everything after a successful `new_device` write at `attempt`:
wait for materialization, set the VF count, discover and rename the
ports; on success clear the remove flag and register the teardown. -/
def afterCreate (env : NdsEnv) (options : NdsOptions) (attempt : Nat) (id : Nat) : NdsRun :=
  if env.materialize attempt = false then
    { removeFlag := true, id := id, outcome := .failed (materializeFailMsg id), events := [] }
  else
    match env.vfsErr attempt with
    | some e =>
      { removeFlag := true, id := id,
        outcome := .failed (vfsFailMsg options.maxVFs id e),
        events := [.setVFsWrite id options.maxVFs] }
    | none =>
      match renamePorts env (netnsRefOf options) (portNifnames (env.ports attempt) id) 0 with
      | (.failed m, evsR) =>
        { removeFlag := true, id := id, outcome := .failed m,
          events := NdsEvent.setVFsWrite id options.maxVFs :: evsR }
      | (.ok (links, _), evsR) =>
        { removeFlag := false, id := id, outcome := .ok (id, links),
          events := NdsEvent.setVFsWrite id options.maxVFs ::
            (evsR ++ [.teardownRegistered id]) }

/-- Prepend events of an earlier stage to a run. -/
def prependNdsEvents (evs : List NdsEvent) (run : NdsRun) : NdsRun :=
  { run with events := evs ++ run.events }

/-- The `for attempt := 1; attempt <= 10` device creation loop.
`curId` is the current value of the Go variable `id` (read by the
deferred cleanup). -/
def ndsAttemptLoop (env : NdsEnv) (options : NdsOptions) :
    Nat → Nat → Nat → NdsRun
  | 0, _, curId =>
    { removeFlag := false, id := curId, outcome := .failed ndsTooManyMsg, events := [] }
  | fuel + 1, attempt, _ =>
    match attemptId env options attempt with
    | .failed m =>
      { removeFlag := false, id := 0, outcome := .failed m, events := [] }
    | .ok id =>
      let evs1 := [NdsEvent.newDeviceWrite id options.ports options.queueCount]
      match env.newDeviceErr attempt with
      | some e =>
        if options.hasID then
          { removeFlag := false, id := id,
            outcome := .failed (cannotCreateNdsMsg id e), events := evs1 }
        else
          prependNdsEvents evs1 (ndsAttemptLoop env options fuel (attempt + 1) id)
      | none => prependNdsEvents evs1 (afterCreate env options attempt id)

/-- `newTransient` from `netdevsim/peer.go`: open the devlink
connection, run the bounded attempt loop, and fire the deferred
`del_device` write exactly when the remove flag is still set when the
function unwinds (success resets it after registering the teardown). -/
def ndsNewTransient (env : NdsEnv) (options : NdsOptions) : NdsResult :=
  if env.devlinkOk = false then
    { outcome := .failed devlinkFailMsg, events := [] }
  else
    let run := ndsAttemptLoop env options 10 1 0
    { outcome := run.outcome,
      events := run.events ++
        (if run.removeFlag then [NdsEvent.delDeviceWrite run.id] else []) }

/-! ### Supporting lemmas for the netdevsim engine -/

theorem NetdevsimPrefixList_length : NetdevsimPrefixList.length = 5 := by decide

/-- A successful inner rename returns a freshly drawn `ndsi-` name and
has issued the corresponding `LinkSetName` call. -/
theorem renamePort_ok (env : NdsEnv) (nif : List Char) :
    ∀ fuel c rn c2 evs,
      renamePort env nif fuel c = (.ok (rn, c2), evs) →
      (∃ c0, rn = (RandomNifname (env.rnd c0) NetdevsimPrefixList).getD []) ∧
      NdsEvent.renameCall nif rn ∈ evs := by
  intro fuel
  induction fuel with
  | zero => intro c rn c2 evs h; simp [renamePort] at h
  | succ fuel ih =>
    intro c rn c2 evs h
    rw [renamePort] at h
    cases hr : RandomNifname (env.rnd c) NetdevsimPrefixList with
    | none => rw [hr] at h; simp at h
    | some rnm =>
      rw [hr] at h
      dsimp only at h
      by_cases hok : env.renameOk c = true
      · rw [if_pos hok] at h
        injection h with h1 h2
        injection h1 with h1
        injection h1 with hrn _
        subst hrn; subst h2
        exact ⟨⟨c, by rw [hr]; rfl⟩, by simp⟩
      · rw [if_neg hok] at h
        injection h with h1 h2
        have hrec := ih (c + 1) rn c2 (renamePort env nif fuel (c + 1)).2 (by
          rw [← h1])
        refine ⟨hrec.1, ?_⟩
        rw [← h2]
        exact List.mem_cons_of_mem _ hrec.2

/-- Every event the inner rename loop emits is a `LinkSetName` call. -/
theorem renamePort_events_shape (env : NdsEnv) (nif : List Char) :
    ∀ fuel c, ∀ e ∈ (renamePort env nif fuel c).2, ∃ a b, e = NdsEvent.renameCall a b := by
  intro fuel
  induction fuel with
  | zero => intro c e he; simp [renamePort] at he
  | succ fuel ih =>
    intro c e he
    rw [renamePort] at he
    cases hr : RandomNifname (env.rnd c) NetdevsimPrefixList with
    | none => rw [hr] at he; simp at he
    | some rnm =>
      rw [hr] at he
      dsimp only at he
      by_cases hok : env.renameOk c = true
      · rw [if_pos hok] at he
        simp only [List.mem_singleton] at he
        exact ⟨nif, rnm, he⟩
      · rw [if_neg hok] at he
        simp only [List.mem_cons] at he
        rcases he with he | he
        · exact ⟨nif, rnm, he⟩
        · exact ih (c + 1) e he

/-- A successful port rename pass yields one descriptor per discovered
port, in ordinal order: each carries a zero index, the requested
namespace reference, netlink's hardware `Device` kind, a freshly drawn
`ndsi-` name, and the trace holds its rename call from the kernel's
original name. -/
theorem renamePorts_ok (env : NdsEnv) (netnsRef : Option NsRef) :
    ∀ nifs c links c2 evs,
      renamePorts env netnsRef nifs c = (.ok (links, c2), evs) →
      links.length = nifs.length ∧
      ∀ i (h : i < links.length) (h2 : i < nifs.length),
        (links.get ⟨i, h⟩).index = 0 ∧
        (links.get ⟨i, h⟩).nspace = netnsRef ∧
        (links.get ⟨i, h⟩).kind = .nonVeth "device" ∧
        (∃ c0, (links.get ⟨i, h⟩).name =
          (RandomNifname (env.rnd c0) NetdevsimPrefixList).getD []) ∧
        NdsEvent.renameCall (nifs.get ⟨i, h2⟩) ((links.get ⟨i, h⟩).name) ∈ evs := by
  intro nifs
  induction nifs with
  | nil =>
    intro c links c2 evs h
    rw [renamePorts] at h
    injection h with h1 h2
    injection h1 with h1
    injection h1 with hl _
    subst hl
    exact ⟨rfl, fun i h => absurd h (by simp)⟩
  | cons nif rest ih =>
    intro c links c2 evs h
    rw [renamePorts] at h
    split at h
    · simp at h
    · rename_i rname c' evs1 hp
      split at h
      · simp at h
      · rename_i links' c'' evs2 hq
        injection h with h1 h2
        injection h1 with h1
        injection h1 with hl _
        subst hl; subst h2
        have hro := renamePort_ok env nif 10 c rname c' evs1 hp
        have hih := ih c' links' c'' evs2 hq
        refine ⟨by simp [hih.1], ?_⟩
        intro i h hh2
        cases i with
        | zero =>
          obtain ⟨c0, hc0⟩ := hro.1
          refine ⟨rfl, rfl, rfl, ⟨c0, hc0⟩, ?_⟩
          simp only [List.get]
          exact List.mem_append_left _ hro.2
        | succ i =>
          have h' : i < links'.length := by simpa using h
          have h2' : i < rest.length := by simpa using hh2
          have hthis := hih.2 i h' h2'
          refine ⟨hthis.1, hthis.2.1, hthis.2.2.1, hthis.2.2.2.1, ?_⟩
          exact List.mem_append_right _ hthis.2.2.2.2

/-- Every event a (successful or failed) port rename pass emits is a
`LinkSetName` call. -/
theorem renamePorts_events_shape (env : NdsEnv) (netnsRef : Option NsRef) :
    ∀ nifs c, ∀ e ∈ (renamePorts env netnsRef nifs c).2,
      ∃ a b, e = NdsEvent.renameCall a b := by
  intro nifs
  induction nifs with
  | nil => intro c e he; simp [renamePorts] at he
  | cons nif rest ih =>
    intro c e he
    rw [renamePorts] at he
    split at he
    · rename_i m evs1 hp
      exact renamePort_events_shape env nif 10 c e (by rw [hp]; exact he)
    · rename_i rname c' evs1 hp
      split at he
      · rename_i m evs2 hq
        rcases List.mem_append.mp he with he | he
        · exact renamePort_events_shape env nif 10 c e (by rw [hp]; exact he)
        · exact ih c' e (by rw [hq]; exact he)
      · rename_i links' c'' evs2 hq
        rcases List.mem_append.mp he with he | he
        · exact renamePort_events_shape env nif 10 c e (by rw [hp]; exact he)
        · exact ih c' e (by rw [hq]; exact he)

/-- The ID the allocator yields at attempt `k` (when the listing
succeeded). -/
def allocIdAt (env : NdsEnv) (k : Nat) : Nat :=
  lowestAvailableID ((env.listing k).getD [])

/-- The events of `s` consecutive failed-write attempts starting at
`attempt`: one `new_device` write per attempt, each with that
attempt's freshly allocated ID. -/
def ndsSkipEvents (env : NdsEnv) (options : NdsOptions) (attempt s : Nat) : List NdsEvent :=
  (List.range s).map fun i =>
    NdsEvent.newDeviceWrite (allocIdAt env (attempt + i)) options.ports options.queueCount

/-- The Go `id` variable's value after `s` failed-write attempts. -/
def ndsSkipId (env : NdsEnv) (attempt : Nat) (curId : Nat) : Nat → Nat
  | 0 => curId
  | s + 1 => allocIdAt env (attempt + s)

theorem ndsLoop_step_writeFail_noID (env : NdsEnv) (options : NdsOptions)
    (fuel attempt curId : Nat) (hID : options.hasID = false)
    (ents : List (List Char)) (hl : env.listing attempt = some ents)
    (e : String) (he : env.newDeviceErr attempt = some e) :
    ndsAttemptLoop env options (fuel + 1) attempt curId =
      prependNdsEvents
        [.newDeviceWrite (lowestAvailableID ents) options.ports options.queueCount]
        (ndsAttemptLoop env options fuel (attempt + 1) (lowestAvailableID ents)) := by
  simp [ndsAttemptLoop, attemptId, hID, hl, he]

theorem ndsLoop_step_writeFail_hasID (env : NdsEnv) (options : NdsOptions)
    (fuel attempt curId : Nat) (hID : options.hasID = true)
    (e : String) (he : env.newDeviceErr attempt = some e) :
    ndsAttemptLoop env options (fuel + 1) attempt curId =
      { removeFlag := false, id := options.id,
        outcome := .failed (cannotCreateNdsMsg options.id e),
        events := [.newDeviceWrite options.id options.ports options.queueCount] } := by
  simp [ndsAttemptLoop, attemptId, hID, he]

theorem ndsLoop_step_writeOk (env : NdsEnv) (options : NdsOptions)
    (fuel attempt curId : Nat) (id : Nat)
    (hid : attemptId env options attempt = .ok id)
    (he : env.newDeviceErr attempt = none) :
    ndsAttemptLoop env options (fuel + 1) attempt curId =
      prependNdsEvents [.newDeviceWrite id options.ports options.queueCount]
        (afterCreate env options attempt id) := by
  simp [ndsAttemptLoop, hid, he]

theorem prependNdsEvents_comp (a b : List NdsEvent) (r : NdsRun) :
    prependNdsEvents a (prependNdsEvents b r) = prependNdsEvents (a ++ b) r := by
  simp [prependNdsEvents]

/-- Skipping `s` consecutive failed-write attempts of the allocator
path: each issued exactly one creation write with its freshly
allocated ID, and the loop arrives at attempt `attempt + s`. -/
theorem ndsLoop_skip (env : NdsEnv) (options : NdsOptions) :
    ∀ s fuel attempt curId, s ≤ fuel →
      (∀ k, attempt ≤ k → k < attempt + s →
        options.hasID = false ∧ env.listing k ≠ none ∧ env.newDeviceErr k ≠ none) →
      ndsAttemptLoop env options fuel attempt curId =
        prependNdsEvents (ndsSkipEvents env options attempt s)
          (ndsAttemptLoop env options (fuel - s) (attempt + s)
            (ndsSkipId env attempt curId s)) := by
  intro s
  induction s with
  | zero =>
    intro fuel attempt curId _ _
    simp [ndsSkipEvents, ndsSkipId, prependNdsEvents]
  | succ s ih =>
    intro fuel attempt curId hs hc
    obtain ⟨fuel', rfl⟩ : ∃ f, fuel = f + 1 := ⟨fuel - 1, by omega⟩
    obtain ⟨hID, hl, he⟩ := hc attempt (Nat.le_refl _) (by omega)
    obtain ⟨ents, hents⟩ := Option.ne_none_iff_exists'.mp hl
    obtain ⟨e, herr⟩ := Option.ne_none_iff_exists'.mp he
    rw [ndsLoop_step_writeFail_noID env options fuel' attempt curId hID ents hents e herr]
    rw [ih fuel' (attempt + 1) (lowestAvailableID ents) (by omega)
      (fun k hk1 hk2 => hc k (by omega) (by omega))]
    rw [prependNdsEvents_comp]
    have hall : lowestAvailableID ents = allocIdAt env attempt := by
      rw [allocIdAt, hents]; rfl
    have hev : [NdsEvent.newDeviceWrite (lowestAvailableID ents)
          options.ports options.queueCount] ++
        ndsSkipEvents env options (attempt + 1) s = ndsSkipEvents env options attempt (s + 1) := by
      rw [hall, ndsSkipEvents, ndsSkipEvents, List.range_succ_eq_map]
      simp only [List.map_cons, List.map_map, List.singleton_append, Nat.add_zero]
      congr 1
      refine List.map_congr_left ?_
      intro i _
      simp only [Function.comp_apply]
      have heq : attempt + 1 + i = attempt + (i + 1) := by omega
      rw [heq]
    have e1 : fuel' - s = fuel' + 1 - (s + 1) := by omega
    have e2 : attempt + 1 + s = attempt + (s + 1) := by omega
    have e3 : ndsSkipId env (attempt + 1) (lowestAvailableID ents) s =
        ndsSkipId env attempt curId (s + 1) := by
      cases s with
      | zero => simp [ndsSkipId, hall]
      | succ s' =>
        simp only [ndsSkipId]
        congr 1
        omega
    rw [hev, e1, e2, e3]

theorem afterCreate_id (env : NdsEnv) (options : NdsOptions) (attempt id : Nat) :
    (afterCreate env options attempt id).id = id := by
  rw [afterCreate]
  split
  · rfl
  · split
    · rfl
    · split
      · rfl
      · rfl

/-- Reaching attempt `j` (all previous attempts were allocator-path
write failures) and succeeding with the `new_device` write for `idj`:
the overall result is `afterCreate`'s outcome, and the deferred
`del_device` write fires exactly when the remove flag is still set. -/
theorem ndsNewTransient_reach (env : NdsEnv) (options : NdsOptions) (j idj : Nat)
    (hdl : env.devlinkOk = true) (hj1 : 1 ≤ j) (hj10 : j ≤ 10)
    (hprev : ∀ k, 1 ≤ k → k < j →
      options.hasID = false ∧ env.listing k ≠ none ∧ env.newDeviceErr k ≠ none)
    (hid : attemptId env options j = .ok idj)
    (hwr : env.newDeviceErr j = none) :
    ndsNewTransient env options =
      { outcome := (afterCreate env options j idj).outcome,
        events := ndsSkipEvents env options 1 (j - 1) ++
          (NdsEvent.newDeviceWrite idj options.ports options.queueCount ::
            (afterCreate env options j idj).events) ++
          (if (afterCreate env options j idj).removeFlag then
            [NdsEvent.delDeviceWrite idj] else []) } := by
  rw [ndsNewTransient]
  rw [if_neg (by simp [hdl])]
  rw [ndsLoop_skip env options (j - 1) 10 1 0 (by omega)
    (fun k hk1 hk2 => hprev k hk1 (by omega))]
  obtain ⟨f', hf⟩ : ∃ f, 10 - (j - 1) = f + 1 := ⟨10 - j, by omega⟩
  rw [hf, show 1 + (j - 1) = j from by omega]
  rw [ndsLoop_step_writeOk env options f' j (ndsSkipId env 1 0 (j - 1)) idj hid hwr]
  rw [prependNdsEvents_comp]
  simp only [prependNdsEvents, afterCreate_id]
  rw [List.append_assoc]
  simp

theorem afterCreate_materializeFail (env : NdsEnv) (options : NdsOptions) (attempt id : Nat)
    (hm : env.materialize attempt = false) :
    afterCreate env options attempt id =
      { removeFlag := true, id := id, outcome := .failed (materializeFailMsg id),
        events := [] } := by
  simp [afterCreate, hm]

theorem afterCreate_vfsFail (env : NdsEnv) (options : NdsOptions) (attempt id : Nat)
    (e : String) (hm : env.materialize attempt = true) (hv : env.vfsErr attempt = some e) :
    afterCreate env options attempt id =
      { removeFlag := true, id := id,
        outcome := .failed (vfsFailMsg options.maxVFs id e),
        events := [.setVFsWrite id options.maxVFs] } := by
  simp [afterCreate, hm, hv]

theorem afterCreate_renameFail (env : NdsEnv) (options : NdsOptions) (attempt id : Nat)
    (m : String) (evsR : List NdsEvent)
    (hm : env.materialize attempt = true) (hv : env.vfsErr attempt = none)
    (hr : renamePorts env (netnsRefOf options) (portNifnames (env.ports attempt) id) 0 =
      (.failed m, evsR)) :
    afterCreate env options attempt id =
      { removeFlag := true, id := id, outcome := .failed m,
        events := NdsEvent.setVFsWrite id options.maxVFs :: evsR } := by
  simp [afterCreate, hm, hv, hr]

theorem afterCreate_renameOk (env : NdsEnv) (options : NdsOptions) (attempt id : Nat)
    (links : List LinkDesc) (c2 : Nat) (evsR : List NdsEvent)
    (hm : env.materialize attempt = true) (hv : env.vfsErr attempt = none)
    (hr : renamePorts env (netnsRefOf options) (portNifnames (env.ports attempt) id) 0 =
      (.ok (links, c2), evsR)) :
    afterCreate env options attempt id =
      { removeFlag := false, id := id, outcome := .ok (id, links),
        events := NdsEvent.setVFsWrite id options.maxVFs ::
          (evsR ++ [.teardownRegistered id]) } := by
  simp [afterCreate, hm, hv, hr]

/-- C7: a failing device-creation write fails the whole operation
immediately with a message naming the (caller-specified) ID — with one
single creation write and no retry — while on the allocator path a
failing write leads to a further attempt with a freshly allocated ID,
bounded at 10 attempts overall. -/
theorem C7_nds_id_retry (env : NdsEnv) (options : NdsOptions) :
    (∀ e, env.devlinkOk = true → options.hasID = true → env.newDeviceErr 1 = some e →
      (ndsNewTransient env options).outcome = .failed (cannotCreateNdsMsg options.id e) ∧
      (ndsNewTransient env options).events =
        [.newDeviceWrite options.id options.ports options.queueCount]) ∧
    (env.devlinkOk = true → options.hasID = false →
      (∀ k, 1 ≤ k → k ≤ 10 → env.listing k ≠ none ∧ env.newDeviceErr k ≠ none) →
      (ndsNewTransient env options).outcome = .failed ndsTooManyMsg ∧
      (ndsNewTransient env options).events =
        (List.range 10).map fun i =>
          NdsEvent.newDeviceWrite (allocIdAt env (1 + i)) options.ports options.queueCount) := by
  constructor
  · intro e hdl hID he
    rw [ndsNewTransient, if_neg (by simp [hdl])]
    rw [show (10 : Nat) = 9 + 1 from rfl,
      ndsLoop_step_writeFail_hasID env options 9 1 0 hID e he]
    exact ⟨rfl, by simp⟩
  · intro hdl hID hall
    rw [ndsNewTransient, if_neg (by simp [hdl])]
    rw [ndsLoop_skip env options 10 10 1 0 (Nat.le_refl _)
      (fun k hk1 hk2 => ⟨hID, (hall k hk1 (by omega)).1, (hall k hk1 (by omega)).2⟩)]
    simp [ndsAttemptLoop, prependNdsEvents, ndsSkipEvents]

/-- Whether an event is a `del_device` write. -/
def NdsEvent.isDel : NdsEvent → Bool
  | .delDeviceWrite _ => true
  | _ => false

/-- Whether an event is a teardown registration. -/
def NdsEvent.isTeardown : NdsEvent → Bool
  | .teardownRegistered _ => true
  | _ => false

theorem filter_del_skipEvents (env : NdsEnv) (options : NdsOptions) (a s : Nat) :
    (ndsSkipEvents env options a s).filter NdsEvent.isDel = [] := by
  simp [ndsSkipEvents, List.filter_map, Function.comp, NdsEvent.isDel]

theorem filter_teardown_skipEvents (env : NdsEnv) (options : NdsOptions) (a s : Nat) :
    (ndsSkipEvents env options a s).filter NdsEvent.isTeardown = [] := by
  simp [ndsSkipEvents, List.filter_map, Function.comp, NdsEvent.isTeardown]

theorem filter_of_renameCalls (evs : List NdsEvent)
    (h : ∀ e ∈ evs, ∃ a b, e = NdsEvent.renameCall a b) (p : NdsEvent → Bool)
    (hp : ∀ a b, p (NdsEvent.renameCall a b) = false) : evs.filter p = [] := by
  induction evs with
  | nil => rfl
  | cons e rest ih =>
    obtain ⟨a, b, rfl⟩ := h e (List.mem_cons_self _ _)
    rw [List.filter_cons_of_neg (by simp [hp a b])]
    exact ih (fun e' he' => h e' (List.mem_cons_of_mem _ he'))

/-- C6: once the `new_device` write succeeded at attempt `j`, any later
failure (failure to materialize, failed VF configuration, exhausted
port renaming) still triggers the `del_device` write for that ID
before the failure surfaces, so the bus device is not leaked; on full
success no eager deletion happens and exactly one teardown action is
registered. -/
theorem C6_nds_no_leak (env : NdsEnv) (options : NdsOptions) (j idj : Nat)
    (hdl : env.devlinkOk = true) (hj1 : 1 ≤ j) (hj10 : j ≤ 10)
    (hprev : ∀ k, 1 ≤ k → k < j →
      options.hasID = false ∧ env.listing k ≠ none ∧ env.newDeviceErr k ≠ none)
    (hid : attemptId env options j = .ok idj)
    (hwr : env.newDeviceErr j = none) :
    (env.materialize j = false →
      (ndsNewTransient env options).outcome = .failed (materializeFailMsg idj) ∧
      (ndsNewTransient env options).events =
        ndsSkipEvents env options 1 (j - 1) ++
          [NdsEvent.newDeviceWrite idj options.ports options.queueCount,
           NdsEvent.delDeviceWrite idj]) ∧
    (∀ e, env.materialize j = true → env.vfsErr j = some e →
      (ndsNewTransient env options).outcome = .failed (vfsFailMsg options.maxVFs idj e) ∧
      (ndsNewTransient env options).events =
        ndsSkipEvents env options 1 (j - 1) ++
          [NdsEvent.newDeviceWrite idj options.ports options.queueCount,
           NdsEvent.setVFsWrite idj options.maxVFs,
           NdsEvent.delDeviceWrite idj]) ∧
    (∀ m evsR, env.materialize j = true → env.vfsErr j = none →
      renamePorts env (netnsRefOf options) (portNifnames (env.ports j) idj) 0 =
        (.failed m, evsR) →
      (ndsNewTransient env options).outcome = .failed m ∧
      (ndsNewTransient env options).events =
        ndsSkipEvents env options 1 (j - 1) ++
          (NdsEvent.newDeviceWrite idj options.ports options.queueCount ::
            NdsEvent.setVFsWrite idj options.maxVFs :: evsR) ++
          [NdsEvent.delDeviceWrite idj]) ∧
    (∀ links c2 evsR, env.materialize j = true → env.vfsErr j = none →
      renamePorts env (netnsRefOf options) (portNifnames (env.ports j) idj) 0 =
        (.ok (links, c2), evsR) →
      (ndsNewTransient env options).outcome = .ok (idj, links) ∧
      (ndsNewTransient env options).events.filter NdsEvent.isDel = [] ∧
      (ndsNewTransient env options).events.filter NdsEvent.isTeardown =
        [NdsEvent.teardownRegistered idj]) := by
  have hreach := ndsNewTransient_reach env options j idj hdl hj1 hj10 hprev hid hwr
  refine ⟨?_, ?_, ?_, ?_⟩
  · intro hm
    rw [hreach, afterCreate_materializeFail env options j idj hm]
    exact ⟨rfl, by simp⟩
  · intro e hm hv
    rw [hreach, afterCreate_vfsFail env options j idj e hm hv]
    exact ⟨rfl, by simp⟩
  · intro m evsR hm hv hr
    rw [hreach, afterCreate_renameFail env options j idj m evsR hm hv hr]
    exact ⟨rfl, by simp⟩
  · intro links c2 evsR hm hv hr
    rw [hreach, afterCreate_renameOk env options j idj links c2 evsR hm hv hr]
    have hshape : ∀ e ∈ evsR, ∃ a b, e = NdsEvent.renameCall a b := by
      intro e he
      exact renamePorts_events_shape env (netnsRefOf options)
        (portNifnames (env.ports j) idj) 0 e (by rw [hr]; exact he)
    have hdelR : evsR.filter NdsEvent.isDel = [] :=
      filter_of_renameCalls evsR hshape _ (fun a b => rfl)
    have htdR : evsR.filter NdsEvent.isTeardown = [] :=
      filter_of_renameCalls evsR hshape _ (fun a b => rfl)
    refine ⟨rfl, ?_, ?_⟩
    · simp [List.filter_append, filter_del_skipEvents, hdelR, NdsEvent.isDel]
    · simp [List.filter_append, filter_teardown_skipEvents, htdR, NdsEvent.isTeardown]

/-- The `ndsi-` names drawn for port interfaces have the full
15-character length and the `ndsi-` prefix. -/
theorem ndsiName_props (rnd : Nat → Nat) :
    ((RandomNifname rnd NetdevsimPrefixList).getD []).length = 15 ∧
    NetdevsimPrefixList.isPrefixOf ((RandomNifname rnd NetdevsimPrefixList).getD []) := by
  have hshort := base62Nifname_short rnd NetdevsimPrefixList (by decide)
  rw [RandomNifname, hshort, Option.getD_some]
  exact ⟨base62Nifname_length rnd NetdevsimPrefixList _ hshort,
    base62Nifname_startsWith rnd NetdevsimPrefixList _ hshort⟩

/-- C10: on a successful creation at attempt `j`, the returned port
descriptors are one per discovered port, in port-ordinal order (the
`i`-th descriptor is the renamed `i`-th port name): each carries only
a fresh 15-character `ndsi-` name, the namespace reference exactly
when `InNamespace` was given (`NetnsFd >= 0`), and a kernel interface
index left at zero. -/
theorem C10_nds_port_links (env : NdsEnv) (options : NdsOptions) (j idj : Nat)
    (hdl : env.devlinkOk = true) (hj1 : 1 ≤ j) (hj10 : j ≤ 10)
    (hprev : ∀ k, 1 ≤ k → k < j →
      options.hasID = false ∧ env.listing k ≠ none ∧ env.newDeviceErr k ≠ none)
    (hid : attemptId env options j = .ok idj)
    (hwr : env.newDeviceErr j = none)
    (hm : env.materialize j = true) (hv : env.vfsErr j = none)
    (links : List LinkDesc) (c2 : Nat) (evsR : List NdsEvent)
    (hr : renamePorts env (netnsRefOf options) (portNifnames (env.ports j) idj) 0 =
      (.ok (links, c2), evsR)) :
    (ndsNewTransient env options).outcome = .ok (idj, links) ∧
    links.length = (portNifnames (env.ports j) idj).length ∧
    (∀ i (h : i < links.length),
      (links.get ⟨i, h⟩).index = 0 ∧
      (links.get ⟨i, h⟩).nspace =
        (if options.netnsFd ≥ 0 then some (NsRef.nsFd options.netnsFd) else none) ∧
      (links.get ⟨i, h⟩).name.length = 15 ∧
      NetdevsimPrefixList.isPrefixOf (links.get ⟨i, h⟩).name) ∧
    (∀ i (h : i < links.length) (h2 : i < (portNifnames (env.ports j) idj).length),
      NdsEvent.renameCall ((portNifnames (env.ports j) idj).get ⟨i, h2⟩)
        ((links.get ⟨i, h⟩).name) ∈ (ndsNewTransient env options).events) := by
  have hreach := ndsNewTransient_reach env options j idj hdl hj1 hj10 hprev hid hwr
  have hports := renamePorts_ok env (netnsRefOf options)
    (portNifnames (env.ports j) idj) 0 links c2 evsR hr
  have hevents : (ndsNewTransient env options).events =
      ndsSkipEvents env options 1 (j - 1) ++
        (NdsEvent.newDeviceWrite idj options.ports options.queueCount ::
          NdsEvent.setVFsWrite idj options.maxVFs ::
          (evsR ++ [NdsEvent.teardownRegistered idj])) := by
    rw [hreach, afterCreate_renameOk env options j idj links c2 evsR hm hv hr]
    simp
  refine ⟨?_, hports.1, ?_, ?_⟩
  · rw [hreach, afterCreate_renameOk env options j idj links c2 evsR hm hv hr]
  · intro i h
    have h2 : i < (portNifnames (env.ports j) idj).length := by
      rw [← hports.1]; exact h
    have hfields := hports.2 i h h2
    obtain ⟨c0, hc0⟩ := hfields.2.2.2.1
    have hprops := ndsiName_props (env.rnd c0)
    refine ⟨hfields.1, ?_, ?_, ?_⟩
    · rw [hfields.2.1, netnsRefOf]
    · rw [hc0]; exact hprops.1
    · rw [hc0]; exact hprops.2
  · intro i h h2
    have hfields := hports.2 i h h2
    rw [hevents]
    refine List.mem_append_right _ ?_
    refine List.mem_cons_of_mem _ (List.mem_cons_of_mem _ ?_)
    exact List.mem_append_left _ hfields.2.2.2.2

/-- A netdevsim environment in which everything succeeds: empty device
directory, two ports on device 0, all renames succeed, constant random
stream. -/
def ndsEnv0 : NdsEnv :=
  { devlinkOk := true,
    listing := fun _ => some [],
    newDeviceErr := fun _ => none,
    materialize := fun _ => true,
    vfsErr := fun _ => none,
    ports := fun _ =>
      [{ bus := "netdevsim".toList, device := "netdevsim0".toList, port := 0,
         name := "eth0".toList },
       { bus := "netdevsim".toList, device := "netdevsim0".toList, port := 1,
         name := "eth1".toList }],
    rnd := fun _ _ => 0,
    renameOk := fun _ => true }

/-- A netdevsim environment in which every `new_device` write fails. -/
def ndsFailEnv : NdsEnv :=
  { ndsEnv0 with newDeviceErr := fun _ => some "file exists" }

/-- Default-ish options on the allocator path, two ports. -/
def ndsOptions0 : NdsOptions :=
  { hasID := false, id := 0, ports := 2, queueCount := 1, netnsFd := -1, maxVFs := 0 }

/-- Options with the caller-specified ID 5. -/
def ndsOptionsID5 : NdsOptions :=
  { hasID := true, id := 5, ports := 2, queueCount := 1, netnsFd := -1, maxVFs := 0 }

/-- The `ndsi-` name drawn from the all-zero random stream. -/
def ndsiZeroName : List Char := "ndsi-0000000000".toList

/-- The port descriptor produced for each port under `ndsEnv0`. -/
def devLink0 : LinkDesc :=
  { name := ndsiZeroName, index := 0, nspace := none, kind := .nonVeth "device" }

/-- The rename events of the successful two-port run under `ndsEnv0`. -/
def evsR0 : List NdsEvent :=
  [.renameCall "eth0".toList ndsiZeroName, .renameCall "eth1".toList ndsiZeroName]

/-- Witness for C7: a caller-specified ID 5 fails at once with the
message naming 5; the allocator path exhausts its 10 attempts. -/
theorem C7_nds_id_retry_witness :
    (ndsNewTransient ndsFailEnv ndsOptionsID5).outcome =
      .failed (cannotCreateNdsMsg 5 "file exists") ∧
    (ndsNewTransient ndsFailEnv ndsOptions0).outcome = .failed ndsTooManyMsg := by
  constructor
  · exact ((C7_nds_id_retry ndsFailEnv ndsOptionsID5).1 "file exists" rfl rfl rfl).1
  · exact ((C7_nds_id_retry ndsFailEnv ndsOptions0).2 rfl rfl
      (fun k _ _ => ⟨by simp [ndsFailEnv, ndsEnv0], by simp [ndsFailEnv, ndsEnv0]⟩)).1

/-- Witness for C6 on the fully successful two-port run: no eager
deletion, one registered teardown. -/
theorem C6_nds_no_leak_witness :
    (ndsNewTransient ndsEnv0 ndsOptions0).outcome = .ok (0, [devLink0, devLink0]) ∧
    (ndsNewTransient ndsEnv0 ndsOptions0).events.filter NdsEvent.isDel = [] ∧
    (ndsNewTransient ndsEnv0 ndsOptions0).events.filter NdsEvent.isTeardown =
      [NdsEvent.teardownRegistered 0] := by
  exact (C6_nds_no_leak ndsEnv0 ndsOptions0 1 0 rfl (by decide) (by decide)
    (fun k hk1 hk2 => absurd hk2 (Nat.not_lt.mpr hk1))
    (by decide) rfl).2.2.2 [devLink0, devLink0] 2 evsR0 rfl rfl (by decide)

/-- Witness for C10: the two returned port descriptors carry fresh
15-character `ndsi-` names, no namespace reference (no `InNamespace`),
and a zero index. -/
theorem C10_nds_port_links_witness :
    (ndsNewTransient ndsEnv0 ndsOptions0).outcome = .ok (0, [devLink0, devLink0]) ∧
    [devLink0, devLink0].length = (portNifnames (ndsEnv0.ports 1) 0).length ∧
    devLink0.index = 0 ∧
    devLink0.nspace =
      (if ndsOptions0.netnsFd ≥ 0 then some (NsRef.nsFd ndsOptions0.netnsFd) else none) ∧
    devLink0.name.length = 15 ∧
    NetdevsimPrefixList.isPrefixOf devLink0.name := by
  have h := C10_nds_port_links ndsEnv0 ndsOptions0 1 0 rfl (by decide) (by decide)
    (fun k hk1 hk2 => absurd hk2 (Nat.not_lt.mpr hk1)) (by decide) rfl rfl rfl
    [devLink0, devLink0] 2 evsR0 (by decide)
  have h0 := h.2.2.1 0 (by decide)
  exact ⟨h.1, h.2.1, h0.1, h0.2.1, h0.2.2.1, h0.2.2.2⟩

/-! ## Detached network namespace creation (`netns/netns.go`, `NewTransient`)

The per-OS-thread namespace state is modelled explicitly: the calling
thread's current network namespace, its lock nesting, and the process
fd table mapping open fds to namespace ids.  `unshare(CLONE_NEWNET)`
creates a fresh namespace and switches the thread into it; opening
`/proc/thread-self/ns/net` yields an fd referencing the thread's
current namespace; `setns` switches the thread to the namespace an
open fd references. -/

/-- The thread/kernel state the netns operations act on. -/
structure NetnsState where
  curNs : Nat
  lockCount : Nat
  fds : List (Nat × Nat)
  nextFd : Nat
  nextNs : Nat
deriving DecidableEq, Repr

/-- `runtime.LockOSThread()`. -/
def lockOSThread (s : NetnsState) : NetnsState := { s with lockCount := s.lockCount + 1 }

/-- `runtime.UnlockOSThread()`. -/
def unlockOSThread (s : NetnsState) : NetnsState := { s with lockCount := s.lockCount - 1 }

/-- `unix.Open("/proc/thread-self/ns/net", O_RDONLY, 0)`: a fresh fd
referencing the thread's current network namespace. -/
def openCurNetns (s : NetnsState) : NetnsState × Nat :=
  ({ s with fds := (s.nextFd, s.curNs) :: s.fds, nextFd := s.nextFd + 1 }, s.nextFd)

/-- `unix.Close(fd)`. -/
def closeFd (s : NetnsState) (fd : Nat) : NetnsState :=
  { s with fds := s.fds.filter (fun p => p.1 ≠ fd) }

/-- `unix.Unshare(CLONE_NEWNET)`: create a fresh network namespace and
switch the calling thread into it. -/
def unshareNet (s : NetnsState) : NetnsState :=
  { s with curNs := s.nextNs, nextNs := s.nextNs + 1 }

/-- `unix.Setns(fd, CLONE_NEWNET)`: switch the calling thread into the
namespace the open fd references; fails on an invalid fd. -/
def setnsFd (s : NetnsState) (fd : Nat) : Option NetnsState :=
  (s.fds.lookup fd).map (fun ns => { s with curNs := ns })

/-- Which of the syscalls of one `netns.NewTransient` call succeed. -/
structure NetnsEnv where
  openOrigOk : Bool
  unshareOk : Bool
  openNewOk : Bool
  setnsOk : Bool

/-- The observable result of `netns.NewTransient`: the returned fd (or
the aborting failure), the final thread/kernel state, whether the
Ginkgo cleanup closing the new fd was registered, and the sequence of
namespaces the thread was switched through. -/
structure NetnsResult where
  outcome : Outcome Nat
  state : NetnsState
  cleanupRegistered : Bool
  nsSwitches : List Nat
deriving DecidableEq, Repr

/-- `netns.NewTransient` from `netns/netns.go`: lock the thread, open
a reference to the original namespace, unshare into a fresh network
namespace, open an fd referencing the fresh namespace, switch the
thread back through the original-namespace fd, register the deferred
close of the new fd, unlock the thread, and return the new fd (the
deferred close of the original fd runs on every exit). -/
def netnsNewTransient (env : NetnsEnv) (s0 : NetnsState) : NetnsResult :=
  let s1 := lockOSThread s0
  -- orignetnsfd := current(); a failed open aborts inside current(),
  -- before the deferred close is registered.
  if env.openOrigOk = false then
    { outcome := .failed "cannot determine current network namespace from procfs",
      state := s1, cleanupRegistered := false, nsSwitches := [] }
  else
    let so := openCurNetns s1
    let s2 := so.1
    let origfd := so.2
    if env.unshareOk = false then
      { outcome := .failed "cannot create new network namespace",
        state := closeFd s2 origfd, cleanupRegistered := false, nsSwitches := [] }
    else
      let s3 := unshareNet s2
      if env.openNewOk = false then
        { outcome := .failed "cannot determine new network namespace from procfs",
          state := closeFd s3 origfd, cleanupRegistered := false,
          nsSwitches := [s3.curNs] }
      else
        let sn := openCurNetns s3
        let s4 := sn.1
        let newfd := sn.2
        if env.setnsOk = false then
          { outcome := .failed "cannot switch back into original network namespace",
            state := closeFd s4 origfd, cleanupRegistered := false,
            nsSwitches := [s3.curNs] }
        else
          match setnsFd s4 origfd with
          | none =>
            { outcome := .failed "cannot switch back into original network namespace",
              state := closeFd s4 origfd, cleanupRegistered := false,
              nsSwitches := [s3.curNs] }
          | some s5 =>
            let s6 := unlockOSThread s5
            let s7 := closeFd s6 origfd
            { outcome := .ok newfd, state := s7, cleanupRegistered := true,
              nsSwitches := [s3.curNs, s5.curNs] }

/-- C9: whenever `netns.NewTransient` returns an fd, the calling
thread's current network namespace is the one it occupied before the
call; the thread entered the freshly created namespace only
transiently (the switch sequence is: into the fresh namespace, back
to the original one); the returned fd references the fresh namespace;
and the deferred close of that fd was registered. -/
theorem C9_netns_NewTransient_restores (env : NetnsEnv) (s0 : NetnsState) (fd : Nat) :
    (netnsNewTransient env s0).outcome = .ok fd →
    (netnsNewTransient env s0).state.curNs = s0.curNs ∧
    (netnsNewTransient env s0).nsSwitches = [s0.nextNs, s0.curNs] ∧
    (netnsNewTransient env s0).state.fds.lookup fd = some s0.nextNs ∧
    (netnsNewTransient env s0).cleanupRegistered = true := by
  intro hok
  have hb1 : (s0.nextFd == s0.nextFd + 1) = false := by simp
  have hb2 : (s0.nextFd == s0.nextFd) = true := by simp
  by_cases h1 : env.openOrigOk = false
  · simp [netnsNewTransient, h1] at hok
  · by_cases h2 : env.unshareOk = false
    · simp [netnsNewTransient, h1, h2] at hok
    · by_cases h3 : env.openNewOk = false
      · simp [netnsNewTransient, h1, h2, h3] at hok
      · by_cases h4 : env.setnsOk = false
        · simp [netnsNewTransient, h1, h2, h3, h4, setnsFd, openCurNetns, unshareNet,
            lockOSThread, List.lookup, hb1, hb2] at hok
        · simp only [netnsNewTransient, h1, h2, h3, h4, if_false, Bool.false_eq_true] at hok ⊢
          simp [setnsFd, openCurNetns, unshareNet, lockOSThread, unlockOSThread, closeFd,
            List.lookup, hb1, hb2] at hok ⊢
          cases hok
          simp [hb1, hb2]

/-- Witness for C9 at a concrete initial state (namespace 3, next
namespace id 7, next fd 10): the returned fd 11 references namespace
7 while the thread ends back in namespace 3. -/
theorem C9_netns_NewTransient_restores_witness :
    ((netnsNewTransient ⟨true, true, true, true⟩
        ⟨3, 0, [], 10, 7⟩).state.curNs = 3 ∧
      (netnsNewTransient ⟨true, true, true, true⟩
        ⟨3, 0, [], 10, 7⟩).nsSwitches = [7, 3] ∧
      (netnsNewTransient ⟨true, true, true, true⟩
        ⟨3, 0, [], 10, 7⟩).state.fds.lookup 11 = some 7 ∧
      (netnsNewTransient ⟨true, true, true, true⟩
        ⟨3, 0, [], 10, 7⟩).cleanupRegistered = true) :=
  C9_netns_NewTransient_restores ⟨true, true, true, true⟩ ⟨3, 0, [], 10, 7⟩ 11 (by decide)

end Notwork
